import Mathlib

/-
  Verification development for the pixel-colony simulation core.

  The definitions below are a shallow embedding of the TypeScript source:
    src/types.ts         (data model)
    src/constants.ts     (map dimensions, cost tables, flavor text)
    src/utils/gameLogic.ts (map generation, genesis, placeBuilding, tick loop)
    the application root (bless / cycle-role action handlers)

  Conventions of the embedding:
  * JS numbers that hold integer quantities (resources, coordinates,
    timers, progress) are modelled as Int; tick counts as Nat.
  * Math.random() is modelled as an explicit stream of rationals
    (a function from a counter to a rational) threaded through every
    function that draws; the seeded linear congruential generator is
    modelled exactly (state update (s * 9301 + 49297) mod 233280 with
    the JS truncated remainder, draw = state / 233280).
  * Date.now() / toLocaleTimeString(), which only feed identifiers and
    log timestamps, are modelled by an explicit (now : Nat) parameter.
  * Fallible operations (placeBuilding returning null) return Option.
  * JS array index lookups that can be out of range return Option
    (undefined is modelled as none).
-/

set_option maxRecDepth 200000

namespace PixelColony

/-- Random draw stream: an arbitrary function from a counter to a
rational in place of JS Math.random(), plus the current counter. -/
structure Rng where
  f : ℕ → ℚ
  i : ℕ

/-- Take the next unseeded random draw. -/
def Rng.next (r : Rng) : ℚ × Rng := (r.f r.i, ⟨r.f, r.i + 1⟩)

/-- JS Math.floor on a rational value. -/
def jsFloor (q : ℚ) : ℤ := Int.fdiv q.num q.den

/-- JS Math.floor(q * n) for a natural multiplier, computed directly on
the numerator and denominator (Mathlib's rational multiplication is
irreducible, which would block kernel evaluation). -/
def jsFloorMul (q : ℚ) (n : ℕ) : ℤ := Int.fdiv (q.num * n) q.den

/-- JS remainder operator (sign of the dividend), used by the seeded
generator; for a non-negative dividend it agrees with Nat mod. -/
def jsMod (a b : ℤ) : ℤ := if 0 ≤ a then a % b else -((-a) % b)

/-- TileType from src/types.ts. -/
inductive Tile
  | GRASS | FOREST | MOUNTAIN | WATER | SAND | FLOOR | WALL
deriving DecidableEq, Repr

/-- NPCState from src/types.ts. -/
inductive NPCState
  | IDLE | MOVING | GATHERING | BUILDING | SLEEPING | FIGHTING | CRAFTING | FARMING
deriving DecidableEq, Repr

/-- NPCRole from src/types.ts. -/
inductive NPCRole
  | WORKER | GUARD | EXPLORER | BUILDER | FARMER
deriving DecidableEq, Repr

/-- StructureType from src/types.ts. -/
inductive StructureType
  | BASE | WAREHOUSE | TOWER | FARM | HOUSE
deriving DecidableEq, Repr

/-- Weather variants of GameState.weather. -/
inductive Weather
  | SUNNY | RAIN | NIGHT
deriving DecidableEq, Repr

/-- Log entry severity from src/types.ts. -/
inductive LogType
  | INFO | DANGER | SUCCESS | FUNNY
deriving DecidableEq, Repr

/-- Integer grid position. -/
structure Position where
  x : ℤ
  y : ℤ
deriving DecidableEq, Repr

/-- The resource ledger: Record of ResourceType to number. -/
structure Resources where
  wood : ℤ
  stone : ℤ
  food : ℤ
  fate : ℤ
deriving DecidableEq, Repr

/-- Equipment record of an NPC. -/
structure Equipment where
  pickaxe : Bool
  sword : Bool
deriving DecidableEq, Repr

/-- LogEntry from src/types.ts. -/
structure LogEntry where
  id : String
  timestamp : String
  message : String
  type : LogType
deriving DecidableEq, Repr

/-- NPC from src/types.ts (the inventory map is carried but unused by
behavior, as in the source). -/
structure NPC where
  id : String
  name : String
  pos : Position
  color : String
  state : NPCState
  targetPos : Option Position
  health : ℤ
  maxHealth : ℤ
  role : NPCRole
  inventory : List (String × ℤ)
  equipment : Equipment
  traits : List String
  actionTimer : ℤ
  thought : String
deriving DecidableEq, Repr

/-- Building from src/types.ts. -/
structure Building where
  id : String
  name : String
  pos : Position
  color : String
  structureType : StructureType
  completed : Bool
  constructionProgress : ℤ
  maxConstructionProgress : ℤ
deriving DecidableEq, Repr

/-- GameState from src/types.ts. -/
structure GameState where
  colonyName : String
  seed : ℤ
  map : List (List Tile)
  width : ℤ
  height : ℤ
  npcs : List NPC
  buildings : List Building
  resources : Resources
  logs : List LogEntry
  tickCount : ℕ
  weather : Weather
  epoch : ℤ
  selectedEntityId : Option String
deriving DecidableEq, Repr

-- Constants from src/constants.ts.

def MAP_WIDTH : ℕ := 50

def MAP_HEIGHT : ℕ := 40

def NAMES_PREFIX : List String :=
  ["Bim", "Bom", "Dar", "Kor", "Zan", "El", "Fim", "Gim", "Huk", "Tor"]

def NAMES_SUFFIX : List String :=
  ["li", "bo", "grum", "rak", "thos", "dall", "rin", "dun", "dor", "min"]

def FUNNY_MESSAGES : List String :=
  ["contemplating the roundness of rocks.",
   "thinking about growing a second beard.",
   "arguing with a squirrel.",
   "trying to invent the sandwich.",
   "forgot where they put the shovel.",
   "singing a song about gold.",
   "worried about the economy.",
   "wondering if clouds taste like wool.",
   "planning a nap."]

/-- BUILDING_COSTS wood column (absent entries are none; BASE has an
empty cost record in the source). -/
def costWood : StructureType → Option ℤ
  | StructureType.BASE => none
  | StructureType.WAREHOUSE => some 50
  | StructureType.TOWER => some 20
  | StructureType.FARM => some 30
  | StructureType.HOUSE => some 40

/-- BUILDING_COSTS stone column. -/
def costStone : StructureType → Option ℤ
  | StructureType.TOWER => some 50
  | StructureType.FARM => some 10
  | _ => none

/-- BUILDING_COSTS food column (always absent in the source table). -/
def costFood : StructureType → Option ℤ
  | _ => none

/-- TOOL_COSTS.PICKAXE wood cost. -/
def PICKAXE_WOOD_COST : ℤ := 10

/-- BUILDING_COLORS table. -/
def buildingColor : StructureType → String
  | StructureType.BASE => "#8f563b"
  | StructureType.WAREHOUSE => "#5d4037"
  | StructureType.TOWER => "#4a4a4a"
  | StructureType.FARM => "#eab308"
  | StructureType.HOUSE => "#9ca3af"

/-- JS truthiness of an optional numeric cost entry: undefined and 0 are
falsy, every other number is truthy. -/
def truthy : Option ℤ → Prop
  | none => False
  | some v => v ≠ 0

instance : DecidablePred truthy := by
  intro o
  cases o with
  | none => exact isFalse (fun h => h)
  | some v => exact (inferInstance : Decidable (v ≠ 0))

/-- The numeric value of a cost entry (only read under a truthy guard). -/
def valOf : Option ℤ → ℤ
  | none => 0
  | some v => v

-- --- RNG & helpers (src/utils/gameLogic.ts) ---

/-- One update of the seeded linear congruential generator
(PseudoRandom.next state transition). -/
def lcgNext (s : ℤ) : ℤ := jsMod (s * 9301 + 49297) 233280

/-- The value returned by PseudoRandom.next for the updated state. -/
def lcgVal (s : ℤ) : ℚ := mkRat s 233280

/-- generateName: a name drawn from the prefix and suffix pools. -/
def generateName (rng : Rng) : String × Rng :=
  let (r1, rng1) := rng.next
  let (r2, rng2) := rng1.next
  (NAMES_PREFIX.getD (jsFloorMul r1 10).toNat "" ++
   NAMES_SUFFIX.getD (jsFloorMul r2 10).toNat "", rng2)

/-- Manhattan distance between two positions (JS Math.abs is modelled
by Int.natAbs cast back to Int). -/
def dist (p q : Position) : ℤ := ((p.x - q.x).natAbs : ℤ) + ((p.y - q.y).natAbs : ℤ)

-- --- Map generation ---

/-- The cell value chosen from one random draw (threshold precedence as
in generateMap: Mountain, Forest, Water, Sand, else Grass). -/
def tileOfDraw (q : ℚ) : Tile :=
  if q < mkRat 1 20 then Tile.MOUNTAIN
  else if q < mkRat 1 5 then Tile.FOREST
  else if q < mkRat 1 4 then Tile.WATER
  else if q < mkRat 27 100 then Tile.SAND
  else Tile.GRASS

/-- One generated row of w cells, threading the LCG state cell by cell
(inner x loop of generateMap). -/
def genRow : ℕ → ℤ → List Tile × ℤ
  | 0, s => ([], s)
  | w + 1, s =>
    let s' := lcgNext s
    let t := tileOfDraw (lcgVal s')
    let (rest, s'') := genRow w s'
    (t :: rest, s'')

/-- h generated rows (outer y loop of generateMap). -/
def genRows (w : ℕ) : ℕ → ℤ → List (List Tile) × ℤ
  | 0, s => ([], s)
  | h + 1, s =>
    let (row, s') := genRow w s
    let (rest, s'') := genRows w h s'
    (row :: rest, s'')

/-- Force one row's cells at the given x indexes to Grass (inner loop of
the center-clearing pass). -/
def forceRow (row : List Tile) (xs : List ℕ) : List Tile :=
  xs.foldl (fun r x => r.set x Tile.GRASS) row

/-- The x (resp. y) index range cx-3 .. cx+3 of the center-clearing
pass, for a center at index c (the source only runs it on the 50 x 40
grid where the whole block is in range). -/
def centerRange (c : ℕ) : List ℕ := (List.range 7).map (fun i => c - 3 + i)

/-- The center-clearing pass of generateMap: every cell of the 7 x 7
block around (cx, cy) is set to Grass. -/
def forceCenter (m : List (List Tile)) (cx cy : ℕ) : List (List Tile) :=
  (centerRange cy).foldl
    (fun acc y => acc.set y (forceRow (acc.getD y []) (centerRange cx))) m

/-- generateMap from src/utils/gameLogic.ts: seeded random fill followed
by the center-clearing pass. -/
def generateMap (w h : ℕ) (seed : ℤ) : List (List Tile) :=
  forceCenter (genRows w h seed).1 (w / 2) (h / 2)

/-- map[y][x] lookup with JS out-of-range reads modelled as none. -/
def tileAtXY (m : List (List Tile)) (x y : ℤ) : Option Tile :=
  if 0 ≤ x ∧ 0 ≤ y then (m.get? y.toNat).bind (fun row => row.get? x.toNat)
  else none

/-- map[y][x] = t in-place assignment (out-of-range writes are dropped;
the source only writes in-range cells). -/
def setTileXY (m : List (List Tile)) (x y : ℤ) (t : Tile) : List (List Tile) :=
  if 0 ≤ x ∧ 0 ≤ y then m.set y.toNat ((m.getD y.toNat []).set x.toNat t)
  else m

-- --- Genesis ---

/-- One spawned dwarf of createInitialState (index i): random name, a
position within a small random offset of the map center, role Guard for
index 0 and Worker otherwise. -/
def spawnNpc (i : ℕ) (now : ℕ) (rng : Rng) : NPC × Rng :=
  let (name, rng1) := generateName rng
  let (rx1, rng2) := rng1.next
  let (rx2, rng3) := rng2.next
  let (ry1, rng4) := rng3.next
  let (ry2, rng5) := rng4.next
  let px : ℤ := (MAP_WIDTH : ℤ) / 2 + (if rx1 > mkRat 1 2 then 1 else -1) * jsFloorMul rx2 3
  let py : ℤ := (MAP_HEIGHT : ℤ) / 2 + (if ry1 > mkRat 1 2 then 1 else -1) * jsFloorMul ry2 3
  ({ id := "npc_" ++ toString now ++ "_" ++ toString i
     name := name
     pos := ⟨px, py⟩
     color := "#ef4444"
     state := NPCState.IDLE
     targetPos := none
     health := 100
     maxHealth := 100
     role := if i = 0 then NPCRole.GUARD else NPCRole.WORKER
     inventory := []
     equipment := ⟨false, false⟩
     traits := ["Hardy"]
     actionTimer := 0
     thought := "New world!" }, rng5)

/-- The five spawned dwarves (loop i = 0 .. 4 of createInitialState). -/
def spawnNpcs : ℕ → ℕ → Rng → List NPC × Rng
  | 0, _, rng => ([], rng)
  | k + 1, now, rng =>
    let i := 5 - (k + 1)
    let (n, rng') := spawnNpc i now rng
    let (rest, rng'') := spawnNpcs k now rng'
    (n :: rest, rng'')

/-- The initial Base building of createInitialState. -/
def initialBase : Building :=
  { id := "base_01"
    name := "Town Hall"
    pos := ⟨(MAP_WIDTH : ℤ) / 2, (MAP_HEIGHT : ℤ) / 2⟩
    color := buildingColor StructureType.BASE
    structureType := StructureType.BASE
    completed := true
    constructionProgress := 100
    maxConstructionProgress := 100 }

/-- createInitialState: genesis of a world from a colony name and an
optional seed (a random integer is drawn when the seed is omitted). -/
def createInitialState (name : String) (seedInput : Option ℤ) (rng : Rng)
    (now : ℕ) : GameState × Rng :=
  let (seed, rng0) :=
    match seedInput with
    | some s => (s, rng)
    | none =>
      let (r, rng') := rng.next
      (jsFloorMul r 1000000, rng')
  let m := generateMap MAP_WIDTH MAP_HEIGHT seed
  let (npcs, rng1) := spawnNpcs 5 now rng0
  ({ colonyName := name
     seed := seed
     map := m
     width := (MAP_WIDTH : ℤ)
     height := (MAP_HEIGHT : ℤ)
     npcs := npcs
     buildings := [initialBase]
     resources := ⟨0, 0, 20, 0⟩
     logs := [⟨"init", toString now, "The expedition has arrived.", LogType.INFO⟩]
     tickCount := 0
     weather := Weather.SUNNY
     epoch := 1
     selectedEntityId := none }, rng1)

-- --- placeBuilding ---

/-- Does some existing building occupy (x, y)? -/
def occupied (bs : List Building) (x y : ℤ) : Prop :=
  ∃ b ∈ bs, b.pos.x = x ∧ b.pos.y = y

instance (bs : List Building) (x y : ℤ) : Decidable (occupied bs x y) :=
  List.decidableBEx _ bs

/-- The insufficiency condition of placeBuilding: some present, nonzero
cost entry exceeds the matching balance. -/
def insufficientFor (t : StructureType) (r : Resources) : Prop :=
  (truthy (costWood t) ∧ r.wood < valOf (costWood t)) ∨
  (truthy (costStone t) ∧ r.stone < valOf (costStone t)) ∨
  (truthy (costFood t) ∧ r.food < valOf (costFood t))

instance (t : StructureType) (r : Resources) : Decidable (insufficientFor t r) := by
  unfold insufficientFor
  infer_instance

/-- placeBuilding from src/utils/gameLogic.ts: bounds, collision,
terrain and cost checks in order (any failure returns none with the
input state untouched), then resource deduction, the new incomplete
building, and one prepended log entry. -/
def placeBuilding (s : GameState) (x y : ℤ) (t : StructureType) (now : ℕ) :
    Option GameState :=
  if x < 0 ∨ x ≥ (MAP_WIDTH : ℤ) ∨ y < 0 ∨ y ≥ (MAP_HEIGHT : ℤ) then none
  else if occupied s.buildings x y then none
  else if tileAtXY s.map x y = some Tile.WATER ∨
          tileAtXY s.map x y = some Tile.MOUNTAIN then none
  else if truthy (costWood t) ∧ s.resources.wood < valOf (costWood t) then none
  else if truthy (costStone t) ∧ s.resources.stone < valOf (costStone t) then none
  else if truthy (costFood t) ∧ s.resources.food < valOf (costFood t) then none
  else
    let r1 := if truthy (costWood t) then
        { s.resources with wood := s.resources.wood - valOf (costWood t) }
      else s.resources
    let r2 := if truthy (costStone t) then
        { r1 with stone := r1.stone - valOf (costStone t) }
      else r1
    let newBuilding : Building :=
      { id := "bld_" ++ toString now
        name := if t = StructureType.FARM then "Wheat Farm" else "House"
        pos := ⟨x, y⟩
        color := buildingColor t
        structureType := t
        completed := false
        constructionProgress := 0
        maxConstructionProgress := 100 }
    some { s with
      resources := r2
      buildings := s.buildings ++ [newBuilding]
      logs := ⟨"build_" ++ toString now, toString now,
               "Construction started", LogType.INFO⟩ :: s.logs }

-- --- Game loop helpers ---

/-- One scan step of findNearestTile: keep the strictly closer matching
cell (coordinates are scanned row-major, as in the source's y/x loops). -/
def nearestTileStep (m : List (List Tile)) (start : Position) (t : Tile)
    (acc : Option (Position × ℤ)) (c : ℕ × ℕ) : Option (Position × ℤ) :=
  if (m.get? c.2).bind (fun row => row.get? c.1) = some t then
    let p : Position := ⟨(c.1 : ℤ), (c.2 : ℤ)⟩
    let d := dist start p
    match acc with
    | none => some (p, d)
    | some pd => if d < pd.2 then some (p, d) else some pd
  else acc

/-- The row-major list of scanned coordinates of findNearestTile (the
source bounds the x loop by the first row's length). -/
def scanCoords (w h : ℕ) : List (ℕ × ℕ) :=
  (List.range h).flatMap (fun y => (List.range w).map (fun x => (x, y)))

/-- findNearestTile from src/utils/gameLogic.ts: full scan keeping the
nearest matching tile by Manhattan distance. -/
def findNearestTile (m : List (List Tile)) (start : Position) (t : Tile) :
    Option Position :=
  ((scanCoords (m.headD []).length m.length).foldl
    (nearestTileStep m start t) none).map Prod.fst

/-- One step of findNearestEntity over the building list. -/
def nearestBuildingStep (start : Position) (filt : Building → Bool)
    (acc : Option (Building × ℤ)) (b : Building) : Option (Building × ℤ) :=
  if filt b then
    let d := dist start b.pos
    match acc with
    | none => some (b, d)
    | some pd => if d < pd.2 then some (b, d) else some pd
  else acc

/-- findNearestEntity from src/utils/gameLogic.ts, specialised to the
building list (its only call sites). -/
def findNearestBuilding (bs : List Building) (start : Position)
    (filt : Building → Bool) : Option Building :=
  (bs.foldl (nearestBuildingStep start filt) none).map Prod.fst

/-- moveTowards: one greedy step along the axis with the strictly larger
absolute delta; on ties the else branch steps along the y axis. -/
def moveTowards (pos target : Position) : Position :=
  let dx := target.x - pos.x
  let dy := target.y - pos.y
  if dy.natAbs < dx.natAbs then ⟨pos.x + dx.sign, pos.y⟩
  else ⟨pos.x, pos.y + dy.sign⟩

/-- The wander target: a random offset of -2 .. +2 per axis, clamped to
the grid (x draw first, then y, as in the source). -/
def wanderTarget (pos : Position) (rng : Rng) : Position × Rng :=
  let (rx, rng1) := rng.next
  let (ry, rng2) := rng1.next
  (⟨max 0 (min ((MAP_WIDTH : ℤ) - 1) (pos.x + jsFloorMul rx 5 - 2)),
    max 0 (min ((MAP_HEIGHT : ℤ) - 1) (pos.y + jsFloorMul ry 5 - 2))⟩, rng2)

/-- The Idle-state decision branch of the tick loop. It reads the world
but never writes it (the source's IDLE branch only assigns npc fields),
so it returns only the updated npc and the advanced draw stream. -/
def processIdle (s : GameState) (npc : NPC) (rng : Rng) : NPC × Rng :=
  let (r0, rng0) := rng.next
  let (npc1, rng1) :=
    if r0 < mkRat 1 20 then
      let (r1, rng') := rng0.next
      ({ npc with thought := FUNNY_MESSAGES.getD (jsFloorMul r1 9).toNat "" }, rng')
    else (npc, rng0)
  match npc1.role with
  | NPCRole.BUILDER =>
    match findNearestBuilding s.buildings npc1.pos (fun b => !b.completed) with
    | some site =>
      ({ npc1 with targetPos := some site.pos, state := NPCState.MOVING,
                   thought := "Time to build." }, rng1)
    | none =>
      let (tp, rng2) := wanderTarget npc1.pos rng1
      ({ npc1 with targetPos := some tp, state := NPCState.MOVING }, rng2)
  | NPCRole.FARMER =>
    match findNearestBuilding s.buildings npc1.pos
        (fun b => decide (b.structureType = StructureType.FARM) && b.completed) with
    | some farm =>
      ({ npc1 with targetPos := some farm.pos, state := NPCState.MOVING,
                   thought := "Tending the crops." }, rng1)
    | none =>
      let (tp, rng2) := wanderTarget npc1.pos rng1
      ({ npc1 with targetPos := some tp, state := NPCState.MOVING }, rng2)
  | NPCRole.WORKER =>
    if npc1.equipment.pickaxe = false ∧ PICKAXE_WOOD_COST ≤ s.resources.wood then
      match s.buildings.find? (fun b => decide (b.structureType = StructureType.BASE)) with
      | some base =>
        ({ npc1 with targetPos := some base.pos, state := NPCState.MOVING,
                     thought := "Need a pickaxe..." }, rng1)
      | none => (npc1, rng1)
    else
      let (targetType, rng2) :=
        if npc1.equipment.pickaxe then
          let (r, rng') := rng1.next
          ((if r > mkRat 1 2 then Tile.FOREST else Tile.MOUNTAIN), rng')
        else (Tile.FOREST, rng1)
      match findNearestTile s.map npc1.pos targetType with
      | some p => ({ npc1 with targetPos := some p, state := NPCState.MOVING }, rng2)
      | none =>
        let (tp, rng3) := wanderTarget npc1.pos rng2
        ({ npc1 with targetPos := some tp, state := NPCState.MOVING }, rng3)
  | _ =>
    let (r, rng2) := rng1.next
    if r < mkRat 1 5 then
      let (tp, rng3) := wanderTarget npc1.pos rng2
      ({ npc1 with targetPos := some tp, state := NPCState.MOVING }, rng3)
    else (npc1, rng2)

/-- Arrival fallthrough of the Moving state: a Forest or Mountain target
tile starts Gathering, anything else (including an out-of-range read)
returns the agent to Idle with its target cleared. -/
def arrivalTile (s : GameState) (npc : NPC) (tp : Position) : NPC :=
  match tileAtXY s.map tp.x tp.y with
  | some Tile.FOREST => { npc with state := NPCState.GATHERING, actionTimer := 20 }
  | some Tile.MOUNTAIN => { npc with state := NPCState.GATHERING, actionTimer := 20 }
  | _ => { npc with state := NPCState.IDLE, targetPos := none }

/-- The Moving-state branch of the tick loop (reads the world, writes
only npc fields). -/
def processMoving (s : GameState) (npc : NPC) : NPC :=
  match npc.targetPos with
  | none => { npc with state := NPCState.IDLE }
  | some tp =>
    if dist npc.pos tp ≤ 1 then
      if (s.buildings.find? (fun b =>
            decide (b.structureType = StructureType.BASE ∧ b.pos = tp))).isSome ∧
         npc.equipment.pickaxe = false ∧ npc.role = NPCRole.WORKER ∧
         PICKAXE_WOOD_COST ≤ s.resources.wood then
        { npc with state := NPCState.CRAFTING, actionTimer := 30,
                   thought := "Crafting pickaxe..." }
      else
        match s.buildings.find? (fun b => decide (b.pos = tp)) with
        | some b =>
          if b.completed = false ∧ npc.role = NPCRole.BUILDER then
            { npc with state := NPCState.BUILDING, actionTimer := 10 }
          else if b.structureType = StructureType.FARM ∧ b.completed = true ∧
                  npc.role = NPCRole.FARMER then
            { npc with state := NPCState.FARMING, actionTimer := 50 }
          else arrivalTile s npc tp
        | none => arrivalTile s npc tp
    else { npc with pos := moveTowards npc.pos tp }

/-- The Crafting-state branch: on timer expiry, deduct 10 Wood and grant
the pickaxe only when the balance still covers it; always fall back to
Idle after resolution. -/
def processCrafting (s : GameState) (npc : NPC) (now : ℕ) : NPC × GameState :=
  let t := npc.actionTimer - 1
  if t ≤ 0 then
    if PICKAXE_WOOD_COST ≤ s.resources.wood then
      ({ npc with actionTimer := t, state := NPCState.IDLE,
                  equipment := { npc.equipment with pickaxe := true } },
       { s with
         resources := { s.resources with wood := s.resources.wood - PICKAXE_WOOD_COST },
         logs := ⟨"crf_" ++ toString now, toString now,
                  npc.name ++ " crafted a Pickaxe.", LogType.SUCCESS⟩ :: s.logs })
    else ({ npc with actionTimer := t, state := NPCState.IDLE }, s)
  else ({ npc with actionTimer := t }, s)

/-- The ConstructingSite branch: on timer expiry, re-look the building
up by the target position, add 10 progress (completing and logging when
the threshold is reached), reset the timer, and go Idle only once the
building reads back as completed. -/
def processBuildingState (s : GameState) (npc : NPC) (now : ℕ) : NPC × GameState :=
  let t := npc.actionTimer - 1
  if t ≤ 0 then
    let idx := s.buildings.findIdx? (fun b =>
      match npc.targetPos with
      | some tp => decide (b.pos = tp)
      | none => false)
    let s' :=
      match idx with
      | some i =>
        match s.buildings.get? i with
        | some b =>
          let p' := b.constructionProgress + 10
          let b' := { b with constructionProgress := p',
                             completed := if b.maxConstructionProgress ≤ p' then true
                                          else b.completed }
          let logs' := if b.maxConstructionProgress ≤ p' then
              ⟨"bld_fin_" ++ toString now, toString now,
               b.name ++ " construction complete!", LogType.SUCCESS⟩ :: s.logs
            else s.logs
          { s with buildings := s.buildings.set i b', logs := logs' }
        | none => s
      | none => s
    let done :=
      match idx with
      | some i => ((s'.buildings.get? i).map Building.completed).getD false
      | none => false
    ({ npc with actionTimer := 10,
                state := if done then NPCState.IDLE else npc.state }, s')
  else ({ npc with actionTimer := t }, s)

/-- The Farming branch: on timer expiry, add 5 Food, reset the timer to
100, and with 20% probability return to Idle. -/
def processFarming (s : GameState) (npc : NPC) (rng : Rng) : NPC × GameState × Rng :=
  let t := npc.actionTimer - 1
  if t ≤ 0 then
    let s' := { s with resources := { s.resources with food := s.resources.food + 5 } }
    let (r, rng') := rng.next
    ({ npc with actionTimer := 100,
                state := if r < mkRat 1 5 then NPCState.IDLE else npc.state }, s', rng')
  else ({ npc with actionTimer := t }, s, rng)

/-- The gather-yield log entry. -/
def gatherLog (now : ℕ) (npcId npcName gathered secondary : String) : LogEntry :=
  ⟨"log_" ++ toString now ++ "_" ++ npcId, toString now,
   npcName ++ " gathered " ++ gathered ++ secondary ++ ".", LogType.SUCCESS⟩

/-- The Gathering branch: on timer expiry, resolve the yield by the
terrain at the target tile (Forest: wood, apple chance, tree-destruction
chance; Mountain: stone behind a pickaxe guard with an early Idle
fallback, floor-conversion chance; anything else: no yield), roll the
yield log, and return to Idle with the target cleared. -/
def processGathering (s : GameState) (npc : NPC) (rng : Rng) (now : ℕ) :
    NPC × GameState × Rng :=
  let t := npc.actionTimer - 1
  if t ≤ 0 then
    match npc.targetPos with
    | some tp =>
      match tileAtXY s.map tp.x tp.y with
      | some Tile.FOREST =>
        let s1 := { s with resources := { s.resources with wood := s.resources.wood + 5 } }
        let (r1, rng1) := rng.next
        let sec := if r1 < mkRat 1 4 then " & an apple" else ""
        let s2 := if r1 < mkRat 1 4 then
            { s1 with resources := { s1.resources with food := s1.resources.food + 3 } }
          else s1
        let (r2, rng2) := rng1.next
        let s3 := if r2 > mkRat 3 10 then
            { s2 with map := setTileXY s2.map tp.x tp.y Tile.GRASS } else s2
        let (r3, rng3) := rng2.next
        let s4 := if r3 < mkRat 1 10 ∨ sec ≠ "" then
            { s3 with logs := gatherLog now npc.id npc.name "wood" sec :: s3.logs }
          else s3
        ({ npc with actionTimer := t, state := NPCState.IDLE, targetPos := none },
         s4, rng3)
      | some Tile.MOUNTAIN =>
        if npc.equipment.pickaxe then
          let s1 := { s with resources := { s.resources with stone := s.resources.stone + 5 } }
          let (r2, rng2) := rng.next
          let s3 := if r2 > mkRat 4 5 then
              { s1 with map := setTileXY s1.map tp.x tp.y Tile.FLOOR } else s1
          let (r3, rng3) := rng2.next
          let s4 := if r3 < mkRat 1 10 then
              { s3 with logs := gatherLog now npc.id npc.name "stone" "" :: s3.logs }
            else s3
          ({ npc with actionTimer := t, state := NPCState.IDLE, targetPos := none },
           s4, rng3)
        else
          ({ npc with actionTimer := t, thought := "Need a pickaxe!",
                      state := NPCState.IDLE }, s, rng)
      | _ =>
        let (r3, rng3) := rng.next
        let s4 := if r3 < mkRat 1 10 then
            { s with logs := gatherLog now npc.id npc.name "" "" :: s.logs }
          else s
        ({ npc with actionTimer := t, state := NPCState.IDLE, targetPos := none },
         s4, rng3)
    | none =>
      ({ npc with actionTimer := t, state := NPCState.IDLE, targetPos := none },
       s, rng)
  else ({ npc with actionTimer := t }, s, rng)

/-- One agent's evaluation within a tick: dispatch on the agent state.
The Sleeping and Fighting states have no branch in the source and leave
everything unchanged. -/
def processNpc (s : GameState) (rng : Rng) (now : ℕ) (npc : NPC) :
    NPC × GameState × Rng :=
  match npc.state with
  | NPCState.IDLE =>
    let (n, r) := processIdle s npc rng
    (n, s, r)
  | NPCState.MOVING => (processMoving s npc, s, rng)
  | NPCState.CRAFTING =>
    let (n, s') := processCrafting s npc now
    (n, s', rng)
  | NPCState.BUILDING =>
    let (n, s') := processBuildingState s npc now
    (n, s', rng)
  | NPCState.FARMING => processFarming s npc rng
  | NPCState.GATHERING => processGathering s npc rng now
  | _ => (npc, s, rng)

/-- The npcs.map of the tick: agents processed strictly in list order,
with writes by earlier agents visible to later ones. -/
def processAll (now : ℕ) : List NPC → GameState → Rng → List NPC × GameState × Rng
  | [], s, rng => ([], s, rng)
  | npc :: rest, s, rng =>
    let (n', s', rng') := processNpc s rng now npc
    let (ns, s'', rng'') := processAll now rest s' rng'
    (n' :: ns, s'', rng'')

/-- The weather cycle Sunny to Rain to Night to Sunny. -/
def nextWeather : Weather → Weather
  | Weather.SUNNY => Weather.RAIN
  | Weather.RAIN => Weather.NIGHT
  | Weather.NIGHT => Weather.SUNNY

/-- The weather phase of the tick (runs on the already-incremented tick
count): every 500 ticks, advance the weather and prepend a log entry,
truncating the log to 50 entries. -/
def applyWeather (s : GameState) (now : ℕ) : GameState :=
  if s.tickCount % 500 = 0 then
    let w := nextWeather s.weather
    { s with weather := w,
             logs := (⟨"weather_" ++ toString now, toString now,
                       "Weather changed", LogType.INFO⟩ :: s.logs).take 50 }
  else s

/-- The passive Fate gain: +1 every 100 ticks. -/
def applyFate (s : GameState) : GameState :=
  if s.tickCount % 100 = 0 then
    { s with resources := { s.resources with fate := s.resources.fate + 1 } }
  else s

/-- The rare random world event at the end of the tick: 0.5% chance,
half informational, half a Food loss of 2 clamped at zero. -/
def applyRandomEvent (s : GameState) (rng : Rng) (now : ℕ) : GameState × Rng :=
  let (r, rng1) := rng.next
  if r < mkRat 1 200 then
    let (r2, rng2) := rng1.next
    if r2 < mkRat 1 2 then
      ({ s with logs := ⟨"evt_" ++ toString now, toString now,
                         "A mysterious bird flew over the colony.",
                         LogType.INFO⟩ :: s.logs }, rng2)
    else
      ({ s with resources := { s.resources with food := max 0 (s.resources.food - 2) },
                logs := ⟨"evt_" ++ toString now, toString now,
                         "Rats ate some food supplies!",
                         LogType.DANGER⟩ :: s.logs }, rng2)
  else (s, rng1)

/-- updateGameState from src/utils/gameLogic.ts: one tick — increment
the counter, weather phase, passive Fate, per-agent behavior in list
order, then the rare random event. -/
def updateGameState (s : GameState) (rng : Rng) (now : ℕ) : GameState × Rng :=
  let s1 := { s with tickCount := s.tickCount + 1 }
  let s2 := applyWeather s1 now
  let s3 := applyFate s2
  let (npcs', s4, rng4) := processAll now s3.npcs s3 rng
  let s5 := { s4 with npcs := npcs' }
  applyRandomEvent s5 rng4 now

-- --- External action requests (application root handlers) ---

/-- The BLESS action handler: requires Fate of at least 5 and a matching
agent; deducts 5 Fate, heals by 50 capped at max health, sets a flavor
thought and prepends a log entry; otherwise a no-op. -/
def bless (s : GameState) (aid : String) (now : ℕ) : GameState :=
  if 5 ≤ s.resources.fate then
    match s.npcs.findIdx? (fun n => decide (n.id = aid)) with
    | some i =>
      match s.npcs.get? i with
      | some n =>
        { s with
          resources := { s.resources with fate := s.resources.fate - 5 },
          npcs := s.npcs.set i
            { n with health := min n.maxHealth (n.health + 50),
                     thought := "I feel divine power!" },
          logs := ⟨"bless_" ++ toString now, toString now,
                   "You blessed " ++ n.name ++ ".", LogType.SUCCESS⟩ :: s.logs }
      | none => s
    | none => s
  else s

/-- The fixed role cycle of the CYCLE_ROLE handler. -/
def roleCycle : List NPCRole :=
  [NPCRole.WORKER, NPCRole.BUILDER, NPCRole.FARMER, NPCRole.GUARD]

/-- JS Array.indexOf on roleCycle: the position of the role in the
cycle, -1 when absent (Explorer). -/
def roleIndexOf : NPCRole → ℤ
  | NPCRole.WORKER => 0
  | NPCRole.BUILDER => 1
  | NPCRole.FARMER => 2
  | NPCRole.GUARD => 3
  | NPCRole.EXPLORER => -1

/-- Display name of a role (used only in the role-change log line). -/
def roleName : NPCRole → String
  | NPCRole.WORKER => "WORKER"
  | NPCRole.GUARD => "GUARD"
  | NPCRole.EXPLORER => "EXPLORER"
  | NPCRole.BUILDER => "BUILDER"
  | NPCRole.FARMER => "FARMER"

/-- The CYCLE_ROLE action handler: rotate the role through the fixed
cycle (an absent role indexes to -1, so the next role computes to
Worker), reset the state to Idle, clear the target, and prepend a log
entry; a no-op when the agent is not found. -/
def cycleRole (s : GameState) (aid : String) (now : ℕ) : GameState :=
  match s.npcs.findIdx? (fun n => decide (n.id = aid)) with
  | some i =>
    match s.npcs.get? i with
    | some n =>
      let nextRole := roleCycle.getD ((roleIndexOf n.role + 1) % 4).toNat NPCRole.WORKER
      { s with
        npcs := s.npcs.set i
          { n with role := nextRole, state := NPCState.IDLE, targetPos := none },
        logs := ⟨"role_" ++ toString now, toString now,
                 n.name ++ " is now a " ++ roleName nextRole ++ ".",
                 LogType.INFO⟩ :: s.logs }
    | none => s
  | none => s

/-- Selecting an entity only stores the opaque identifier. -/
def selectEntity (s : GameState) (aid : Option String) : GameState :=
  { s with selectedEntityId := aid }

/-- The reachable world states: genesis followed by any sequence of
ticks and external requests (placement, bless, role cycle, selection),
under arbitrary unseeded randomness and wall-clock inputs. -/
inductive Reachable : GameState → Prop
  | genesis (name : String) (seedInput : Option ℤ) (rng : Rng) (now : ℕ) :
      Reachable (createInitialState name seedInput rng now).1
  | step {s : GameState} (h : Reachable s) (rng : Rng) (now : ℕ) :
      Reachable (updateGameState s rng now).1
  | place {s s' : GameState} (h : Reachable s) (x y : ℤ) (t : StructureType)
      (now : ℕ) (hp : placeBuilding s x y t now = some s') : Reachable s'
  | blessed {s : GameState} (h : Reachable s) (aid : String) (now : ℕ) :
      Reachable (bless s aid now)
  | cycled {s : GameState} (h : Reachable s) (aid : String) (now : ℕ) :
      Reachable (cycleRole s aid now)
  | selected {s : GameState} (h : Reachable s) (aid : Option String) :
      Reachable (selectEntity s aid)

-- --- Invariant predicates ---

/-- Every resource count is a non-negative integer. -/
def resOK (r : Resources) : Prop :=
  0 ≤ r.wood ∧ 0 ≤ r.stone ∧ 0 ≤ r.food ∧ 0 ≤ r.fate

instance (r : Resources) : Decidable (resOK r) := by
  unfold resOK
  infer_instance

/-- The building invariant claimed by the specification: non-negative
progress, and completed exactly when progress has reached the
threshold. -/
def buildingOK (b : Building) : Prop :=
  0 ≤ b.constructionProgress ∧
  (b.completed = true ↔ b.maxConstructionProgress ≤ b.constructionProgress)

instance (b : Building) : Decidable (buildingOK b) := by
  unfold buildingOK
  infer_instance

-- --- Concrete worlds used to instantiate the theorems ---

/-- A constant draw stream: every Math.random() call yields 9/10 (no
flavor thought, no wander for guards, no random event, no apples). -/
def constRng : Rng := ⟨fun _ => mkRat 9 10, 0⟩

/-- A concrete genesis world: seed 1, constant draw stream, clock 0.
All five dwarves spawn at (27, 22); the Base stands at (25, 20). -/
def genesisExample : GameState :=
  (createInitialState "Ironhold" (some 1) constRng 0).1

/-- n ticks under a given draw stream. -/
def stepN : ℕ → GameState × Rng → GameState × Rng
  | 0, sr => sr
  | n + 1, sr => stepN n (updateGameState sr.1 sr.2 0)

/-- n CYCLE_ROLE requests aimed at the first dwarf of the genesis
world. -/
def cycleN : ℕ → GameState → GameState
  | 0, s => s
  | n + 1, s => cycleN n (cycleRole s "npc_0_0" 0)

/-- The genesis world after a free Base placement on the grass tile
(26, 22): the empty BASE cost record passes every cost check. -/
def siteWorld : GameState :=
  (placeBuilding genesisExample 26 22 StructureType.BASE 0).getD genesisExample

/-- siteWorld after cycling the four Worker dwarves to Builder. -/
def buildersWorld : GameState :=
  cycleRole (cycleRole (cycleRole (cycleRole siteWorld "npc_0_1" 0)
    "npc_0_2" 0) "npc_0_3" 0) "npc_0_4" 0

/-- buildersWorld after 32 ticks: the four builders work the same site;
on the third firing tick the site completes at 100 and the two builders
processed later in the same tick push its progress to 120. -/
def overbuiltWorld : GameState := (stepN 32 (buildersWorld, constRng)).1

/-- The genesis world after 50 role-cycle requests: 51 log entries. -/
def manyLogsWorld : GameState := cycleN 50 genesisExample

/-- A 40 x 50 all-grass terrain. -/
def allGrassMap : List (List Tile) :=
  List.replicate 40 (List.replicate 50 Tile.GRASS)

/-- A hand-built world on all-grass terrain with only the Base building
and an empty ledger. -/
def flatWorld : GameState :=
  { colonyName := "T"
    seed := 0
    map := allGrassMap
    width := (MAP_WIDTH : ℤ)
    height := (MAP_HEIGHT : ℤ)
    npcs := []
    buildings := [initialBase]
    resources := ⟨0, 0, 0, 0⟩
    logs := []
    tickCount := 0
    weather := Weather.SUNNY
    epoch := 1
    selectedEntityId := none }

/-- flatWorld with a Water tile at (0, 0) and a full ledger. -/
def waterWorld : GameState :=
  { flatWorld with
    map := ((List.replicate 50 Tile.GRASS).set 0 Tile.WATER) ::
           List.replicate 39 (List.replicate 50 Tile.GRASS)
    resources := ⟨1000, 1000, 1000, 1000⟩ }

/-- A template dwarf used to build concrete agents. -/
def baseNpc : NPC :=
  { id := "n1"
    name := "Bimli"
    pos := ⟨0, 0⟩
    color := "#ef4444"
    state := NPCState.IDLE
    targetPos := none
    health := 100
    maxHealth := 100
    role := NPCRole.WORKER
    inventory := []
    equipment := ⟨false, false⟩
    traits := []
    actionTimer := 0
    thought := "" }

/-- A Moving dwarf at (0, 0) whose target (2, 2) ties the two axis
deltas. -/
def movingTieNpc : NPC :=
  { baseNpc with state := NPCState.MOVING, targetPos := some ⟨2, 2⟩ }

/-- A Moving dwarf at (0, 0) whose target (3, 1) has a strictly larger
x delta. -/
def movingFarNpc : NPC :=
  { baseNpc with state := NPCState.MOVING, targetPos := some ⟨3, 1⟩ }

/-- An idle Worker standing on the Base tile of a forestless world. -/
def idleWorkerNpc : NPC := { baseNpc with pos := ⟨25, 20⟩ }

/-- Draws for the C7 counterexample: no flavor thought (first draw),
then wander offsets of exactly 0 on both axes (draws of 1/2). -/
def halfRng : Rng := ⟨fun i => if i = 0 then mkRat 9 10 else mkRat 1 2, 0⟩

/-- A Gathering dwarf whose timer is about to expire while its target
(0, 0) is a plain grass tile. -/
def gatherGrassNpc : NPC :=
  { baseNpc with state := NPCState.GATHERING, targetPos := some ⟨0, 0⟩,
                 actionTimer := 1 }

/-- An Explorer dwarf (a role outside the four-role cycle). -/
def explorerNpc : NPC :=
  { baseNpc with id := "e1", role := NPCRole.EXPLORER,
                 state := NPCState.MOVING, targetPos := some ⟨3, 3⟩ }

/-- flatWorld populated with the Explorer dwarf. -/
def explorerWorld : GameState := { flatWorld with npcs := [explorerNpc] }

/-- An otherwise all-grass terrain with a single Forest tile at (3, 0). -/
def forestMap : List (List Tile) :=
  ((List.replicate 50 Tile.GRASS).set 3 Tile.FOREST) ::
    List.replicate 39 (List.replicate 50 Tile.GRASS)

/-- flatWorld over the single-forest terrain. -/
def forestWorld : GameState := { flatWorld with map := forestMap }

-- --- Theorems ---

/-- Claim C3: placeBuilding rejects, for every state, structure kind and
resource balance: out-of-bounds coordinates; coordinates already
occupied by a building; Water or Mountain terrain; and an insufficient
balance against the structure's cost. Each failure yields none (the
operation is a pure function, so the caller's input state is untouched
on rejection); the checks are nested in the source's order, first
failure wins. -/
theorem c3_placeBuilding_rejections (s : GameState) (x y : ℤ) (t : StructureType)
    (now : ℕ) :
    (¬ (0 ≤ x ∧ x < 50 ∧ 0 ≤ y ∧ y < 40) → placeBuilding s x y t now = none) ∧
    (occupied s.buildings x y → placeBuilding s x y t now = none) ∧
    ((tileAtXY s.map x y = some Tile.WATER ∨ tileAtXY s.map x y = some Tile.MOUNTAIN) →
      placeBuilding s x y t now = none) ∧
    (insufficientFor t s.resources → placeBuilding s x y t now = none) := by
  unfold placeBuilding insufficientFor
  refine ⟨?_, ?_, ?_, ?_⟩ <;> intro h <;>
    split_ifs with h1 h2 h3 h4 h5 h6 <;> first
    | rfl
    | (exfalso
       simp only [MAP_WIDTH, MAP_HEIGHT, Nat.cast_ofNat] at h1
       omega)
    | exact absurd h h2
    | exact absurd h h3
    | (rcases h with h | h | h <;> [exact absurd h h4; exact absurd h h5; exact absurd h h6])

/-- Claim C3 witness: a Farm placement on a Water tile is rejected even
with an ample balance. -/
theorem c3_witness : placeBuilding waterWorld 0 0 StructureType.FARM 0 = none :=
  (c3_placeBuilding_rejections waterWorld 0 0 StructureType.FARM 0).2.2.1
    (Or.inl (by decide))

/-- Claim C4: evaluating placeBuilding with structure kind Base at an
in-bounds, unoccupied grass tile of a world with an empty ledger. The
claim (and the cost table's own "Cannot build" comment) say this must be
rejected; the code instead accepts it — the empty BASE cost record
passes every cost check — deducts nothing, and appends a second BASE
building. -/
theorem c4_base_placement_accepted :
    (placeBuilding flatWorld 26 20 StructureType.BASE 0).map
      (fun s => (s.buildings.length, s.buildings.getLast?.map Building.structureType,
                 s.resources)) =
    some (2, some StructureType.BASE, ⟨0, 0, 0, 0⟩) := by decide

/-- moveTowards at distance above 1: the stepped position, a distance
decrease of exactly 1, and the unchanged other coordinate. -/
theorem moveTowards_spec (pos tp : Position) (hd : 1 < dist pos tp) :
    moveTowards pos tp =
      (if (tp.y - pos.y).natAbs < (tp.x - pos.x).natAbs
       then ⟨pos.x + (tp.x - pos.x).sign, pos.y⟩
       else ⟨pos.x, pos.y + (tp.y - pos.y).sign⟩) ∧
    dist (moveTowards pos tp) tp = dist pos tp - 1 ∧
    ((moveTowards pos tp).x = pos.x ∨ (moveTowards pos tp).y = pos.y) := by
  have he : moveTowards pos tp =
      (if (tp.y - pos.y).natAbs < (tp.x - pos.x).natAbs
       then (⟨pos.x + (tp.x - pos.x).sign, pos.y⟩ : Position)
       else ⟨pos.x, pos.y + (tp.y - pos.y).sign⟩) := rfl
  simp only [dist] at hd
  refine ⟨he, ?_, ?_⟩ <;> rw [he] <;>
    by_cases h : (tp.y - pos.y).natAbs < (tp.x - pos.x).natAbs
  · rw [if_pos h]
    simp only [dist]
    rcases Int.lt_trichotomy (tp.x - pos.x) 0 with hx | hx | hx
    · rw [Int.sign_eq_neg_one_of_neg hx]
      omega
    · omega
    · rw [Int.sign_eq_one_of_pos hx]
      omega
  · rw [if_neg h]
    simp only [dist]
    rcases Int.lt_trichotomy (tp.y - pos.y) 0 with hy | hy | hy
    · rw [Int.sign_eq_neg_one_of_neg hy]
      omega
    · omega
    · rw [Int.sign_eq_one_of_pos hy]
      omega
  · rw [if_pos h]
    exact Or.inr rfl
  · rw [if_neg h]
    exact Or.inl rfl

/-- Claim C6 (amended): a Moving agent at Manhattan distance above 1
from its target steps exactly one coordinate by exactly 1 toward the
target, along the axis with the strictly larger absolute delta — but a
tie steps along the y axis (the strict comparison sends ties to the
else branch), not the x axis as claimed. -/
theorem c6_moving_step (s : GameState) (rng : Rng) (now : ℕ) (npc : NPC) (tp : Position)
    (hst : npc.state = NPCState.MOVING) (htp : npc.targetPos = some tp)
    (hd : 1 < dist npc.pos tp) :
    (processNpc s rng now npc).1.pos =
      (if (tp.y - npc.pos.y).natAbs < (tp.x - npc.pos.x).natAbs
       then ⟨npc.pos.x + (tp.x - npc.pos.x).sign, npc.pos.y⟩
       else ⟨npc.pos.x, npc.pos.y + (tp.y - npc.pos.y).sign⟩) ∧
    dist (processNpc s rng now npc).1.pos tp = dist npc.pos tp - 1 ∧
    ((processNpc s rng now npc).1.pos.x = npc.pos.x ∨
     (processNpc s rng now npc).1.pos.y = npc.pos.y) := by
  have hp : (processNpc s rng now npc).1 = { npc with pos := moveTowards npc.pos tp } := by
    unfold processNpc processMoving
    rw [hst]
    simp only [htp]
    rw [if_neg (by omega)]
  rw [hp]
  simpa using moveTowards_spec npc.pos tp hd

/-- Claim C6 counterexample: the claim as stated (a tie between the two
absolute deltas steps along the x axis, so the y coordinate stays put)
is false: the tied agent at (0, 0) targeting (2, 2) moves to (0, 1). -/
theorem c6_counterexample :
    ¬ (∀ (s : GameState) (rng : Rng) (now : ℕ) (npc : NPC) (tp : Position),
        npc.state = NPCState.MOVING → npc.targetPos = some tp →
        1 < dist npc.pos tp →
        (tp.x - npc.pos.x).natAbs = (tp.y - npc.pos.y).natAbs →
        (processNpc s rng now npc).1.pos.y = npc.pos.y) := by
  intro h
  have hc := h flatWorld constRng 0 movingTieNpc ⟨2, 2⟩ rfl rfl (by decide) (by decide)
  revert hc
  decide

/-- Claim C6 witness: the agent at (0, 0) targeting (3, 1) steps along
the strictly larger x axis to (1, 0). -/
theorem c6_witness : (processNpc flatWorld constRng 0 movingFarNpc).1.pos = ⟨1, 0⟩ := by
  have h := c6_moving_step flatWorld constRng 0 movingFarNpc ⟨3, 1⟩ rfl rfl (by decide)
  rw [h.1]
  decide

/-- Claim C9: a role-cycle request on a found agent always lands in the
four-role cycle Worker, Builder, Farmer, Guard — an out-of-cycle role
such as Explorer indexes to -1, so the next index computes to 0 and the
role becomes Worker — and always resets the state to Idle with the
target cleared. -/
theorem c9_cycleRole_explorer (s : GameState) (aid : String) (now : ℕ) (i : ℕ) (n : NPC)
    (hf : s.npcs.findIdx? (fun m => decide (m.id = aid)) = some i)
    (hg : s.npcs.get? i = some n) :
    ∃ n', (cycleRole s aid now).npcs.get? i = some n' ∧
      n'.state = NPCState.IDLE ∧ n'.targetPos = none ∧
      (n'.role = NPCRole.WORKER ∨ n'.role = NPCRole.BUILDER ∨
       n'.role = NPCRole.FARMER ∨ n'.role = NPCRole.GUARD) ∧
      (n.role = NPCRole.EXPLORER → n'.role = NPCRole.WORKER) := by
  have hlen : i < s.npcs.length := (List.get?_eq_some.mp hg).1
  unfold cycleRole
  simp only [hf, hg]
  refine ⟨{ n with role := roleCycle.getD ((roleIndexOf n.role + 1) % 4).toNat NPCRole.WORKER, state := NPCState.IDLE, targetPos := none }, ?_, rfl, rfl, ?_, ?_⟩
  · show (s.npcs.set i _).get? i = _
    rw [List.get?_eq_getElem?, List.getElem?_set_self (by simpa using hlen)]
  · show roleCycle.getD ((roleIndexOf n.role + 1) % 4).toNat NPCRole.WORKER = _ ∨ _
    cases n.role <;> simp [roleCycle, roleIndexOf]
  · intro hr
    show roleCycle.getD ((roleIndexOf n.role + 1) % 4).toNat NPCRole.WORKER = _
    rw [hr]
    rfl

/-- Claim C9 witness: cycling the Explorer dwarf yields a Worker, Idle,
with no target. -/
theorem c9_witness :
    ∃ n', (cycleRole explorerWorld "e1" 0).npcs.get? 0 = some n' ∧
      n'.state = NPCState.IDLE ∧ n'.targetPos = none ∧
      (n'.role = NPCRole.WORKER ∨ n'.role = NPCRole.BUILDER ∨
       n'.role = NPCRole.FARMER ∨ n'.role = NPCRole.GUARD) ∧
      (explorerNpc.role = NPCRole.EXPLORER → n'.role = NPCRole.WORKER) :=
  c9_cycleRole_explorer explorerWorld "e1" 0 0 explorerNpc (by rfl) (by rfl)

/-- Claim C10: when a Gathering agent's timer expires and the terrain at
its target is neither Forest nor Mountain, no resource count, tile or
building changes; the agent goes Idle with its target cleared (only a
yield log may be rolled). -/
theorem c10_gather_no_yield (s : GameState) (rng : Rng) (now : ℕ) (npc : NPC)
    (tp : Position)
    (hst : npc.state = NPCState.GATHERING) (htp : npc.targetPos = some tp)
    (ht : npc.actionTimer ≤ 1)
    (hf : tileAtXY s.map tp.x tp.y ≠ some Tile.FOREST)
    (hm : tileAtXY s.map tp.x tp.y ≠ some Tile.MOUNTAIN) :
    (processNpc s rng now npc).2.1.resources = s.resources ∧
    (processNpc s rng now npc).2.1.map = s.map ∧
    (processNpc s rng now npc).2.1.buildings = s.buildings ∧
    (processNpc s rng now npc).1.state = NPCState.IDLE ∧
    (processNpc s rng now npc).1.targetPos = none := by
  unfold processNpc processGathering
  rw [hst]
  simp only [htp]
  rw [if_pos (by omega)]
  rcases htile : tileAtXY s.map tp.x tp.y with _ | t
  · simp only [htile]
    split_ifs <;> refine ⟨?_, ?_, ?_, ?_, ?_⟩ <;> trivial
  · cases t <;> simp only [htile] <;>
      first
      | exact absurd htile hf
      | exact absurd htile hm
      | (split_ifs <;> refine ⟨?_, ?_, ?_, ?_, ?_⟩ <;> trivial)

/-- Claim C10 witness: a Gathering dwarf whose target tile is plain
grass yields nothing and goes Idle. -/
theorem c10_witness :
    (processNpc flatWorld constRng 0 gatherGrassNpc).2.1.resources = flatWorld.resources ∧
    (processNpc flatWorld constRng 0 gatherGrassNpc).2.1.map = flatWorld.map ∧
    (processNpc flatWorld constRng 0 gatherGrassNpc).2.1.buildings = flatWorld.buildings ∧
    (processNpc flatWorld constRng 0 gatherGrassNpc).1.state = NPCState.IDLE ∧
    (processNpc flatWorld constRng 0 gatherGrassNpc).1.targetPos = none :=
  c10_gather_no_yield flatWorld constRng 0 gatherGrassNpc ⟨0, 0⟩ rfl rfl
    (by decide) (by decide) (by decide)

/-- A generated row has the requested width. -/
theorem genRow_length (w : ℕ) : ∀ s, (genRow w s).1.length = w := by
  induction w with
  | zero => intro s; rfl
  | succ n ih => intro s; simp [genRow, ih]

/-- The generated grid has the requested height. -/
theorem genRows_length (w h : ℕ) : ∀ s, (genRows w h s).1.length = h := by
  induction h with
  | zero => intro s; rfl
  | succ n ih => intro s; simp [genRows, ih]

/-- Every row of the generated grid has the requested width. -/
theorem genRows_row_length (w h : ℕ) :
    ∀ s, ∀ row ∈ (genRows w h s).1, row.length = w := by
  induction h with
  | zero => intro s row hr; simp [genRows] at hr
  | succ n ih =>
    intro s row hr
    rw [show (genRows w (n + 1) s).1 =
      (genRow w s).1 :: (genRows w n (genRow w s).2).1 from rfl] at hr
    rcases List.mem_cons.mp hr with h1 | h1
    · rw [h1]; exact genRow_length w s
    · exact ih _ row h1

/-- Forcing cells of a row keeps its length. -/
theorem forceRow_length (xs : List ℕ) : ∀ row, (forceRow row xs).length = row.length := by
  induction xs with
  | nil => intro row; rfl
  | cons a t ih =>
    intro row
    rw [show forceRow row (a :: t) = forceRow (row.set a Tile.GRASS) t from rfl,
        ih, List.length_set]

/-- A cell outside the forced index list is untouched. -/
theorem forceRow_get_of_not_mem (xs : List ℕ) :
    ∀ row x, x ∉ xs → (forceRow row xs).get? x = row.get? x := by
  induction xs with
  | nil => intro row x _; rfl
  | cons a t ih =>
    intro row x hx
    rw [show forceRow row (a :: t) = forceRow (row.set a Tile.GRASS) t from rfl,
        ih _ x (fun h => hx (List.mem_cons_of_mem a h)),
        List.get?_eq_getElem?, List.get?_eq_getElem?,
        List.getElem?_set_ne (fun h => hx (by rw [← h]; exact List.mem_cons_self a t))]

/-- Every in-range cell of the forced index list reads back Grass. -/
theorem forceRow_get_of_mem (xs : List ℕ) :
    ∀ row x, x ∈ xs → x < row.length →
    (forceRow row xs).get? x = some Tile.GRASS := by
  induction xs with
  | nil => intro row x hx _; simp at hx
  | cons a t ih =>
    intro row x hx hlt
    rw [show forceRow row (a :: t) = forceRow (row.set a Tile.GRASS) t from rfl]
    by_cases hxt : x ∈ t
    · exact ih _ x hxt (by rw [List.length_set]; exact hlt)
    · have hxa : x = a := by
        rcases List.mem_cons.mp hx with h | h
        · exact h
        · exact absurd h hxt
      subst hxa
      rw [forceRow_get_of_not_mem t _ x hxt, List.get?_eq_getElem?,
          List.getElem?_set_self hlt]

/-- The row-forcing fold of the center-clearing pass keeps every row at
the given width. -/
theorem forceFold_row_length (xs : List ℕ) (w : ℕ) :
    ∀ (ys : List ℕ) (m : List (List Tile)), (∀ row ∈ m, row.length = w) →
    ∀ row ∈ ys.foldl (fun acc y => acc.set y (forceRow (acc.getD y []) xs)) m,
      row.length = w := by
  intro ys
  induction ys with
  | nil => intro m hm row hr; exact hm row hr
  | cons a t ih =>
    intro m hm row hr
    rw [List.foldl_cons] at hr
    by_cases ha : a < m.length
    · refine ih _ ?_ row hr
      intro r hrr
      rcases List.mem_or_eq_of_mem_set hrr with h | h
      · exact hm r h
      · subst h
        rw [forceRow_length, List.getD_eq_getElem?_getD, List.getElem?_eq_getElem ha]
        exact hm _ (List.getElem_mem ha)
    · rw [List.set_eq_of_length_le (le_of_not_lt ha)] at hr
      exact ih _ hm row hr

/-- A row outside the forced index list is untouched by the fold. -/
theorem forceFold_get_of_not_mem (xs : List ℕ) :
    ∀ (ys : List ℕ) (m : List (List Tile)) (y : ℕ), y ∉ ys →
    (ys.foldl (fun acc y2 => acc.set y2 (forceRow (acc.getD y2 []) xs)) m).get? y =
      m.get? y := by
  intro ys
  induction ys with
  | nil => intro m y _; rfl
  | cons a t ih =>
    intro m y hy
    rw [List.foldl_cons, ih _ y (fun h => hy (List.mem_cons_of_mem a h)),
        List.get?_eq_getElem?, List.get?_eq_getElem?,
        List.getElem?_set_ne (fun h => hy (by rw [← h]; exact List.mem_cons_self a t))]

/-- Every in-range row of the forced index list reads back as a forced
row of the original width. -/
theorem forceFold_get_of_mem (xs : List ℕ) (w : ℕ) :
    ∀ (ys : List ℕ) (m : List (List Tile)) (y : ℕ),
    (∀ row ∈ m, row.length = w) → y ∈ ys → y < m.length →
    ∃ r, (ys.foldl (fun acc y2 => acc.set y2 (forceRow (acc.getD y2 []) xs)) m).get? y =
      some (forceRow r xs) ∧ r.length = w := by
  intro ys
  induction ys with
  | nil => intro m y _ hy _; simp at hy
  | cons a t ih =>
    intro m y hm hy hlt
    rw [List.foldl_cons]
    by_cases hyt : y ∈ t
    · by_cases ha : a < m.length
      · refine ih _ y ?_ hyt (by rw [List.length_set]; exact hlt)
        intro r hrr
        rcases List.mem_or_eq_of_mem_set hrr with h | h
        · exact hm r h
        · subst h
          rw [forceRow_length, List.getD_eq_getElem?_getD, List.getElem?_eq_getElem ha]
          exact hm _ (List.getElem_mem ha)
      · rw [List.set_eq_of_length_le (le_of_not_lt ha)]
        exact ih m y hm hyt hlt
    · have hya : y = a := by
        rcases List.mem_cons.mp hy with h | h
        · exact h
        · exact absurd h hyt
      subst hya
      rw [forceFold_get_of_not_mem xs t _ y hyt, List.get?_eq_getElem?,
          List.getElem?_set_self hlt]
      refine ⟨m.getD y [], rfl, ?_⟩
      rw [List.getD_eq_getElem?_getD, List.getElem?_eq_getElem hlt]
      exact hm _ (List.getElem_mem hlt)

/-- The 7 x 7 block centered on (25, 20) of the 50 x 40 generated map is
entirely Grass, for every seed. -/
theorem generateMap_center_grass (seed : ℤ) (x y : ℕ)
    (hx1 : 22 ≤ x) (hx2 : x ≤ 28) (hy1 : 17 ≤ y) (hy2 : y ≤ 23) :
    ((generateMap MAP_WIDTH MAP_HEIGHT seed).get? y).bind (fun row => row.get? x) =
      some Tile.GRASS := by
  unfold generateMap forceCenter
  have hmemy : y ∈ centerRange (MAP_HEIGHT / 2) := by
    unfold centerRange MAP_HEIGHT
    simp only [List.mem_map, List.mem_range]
    exact ⟨y - 17, by omega, by omega⟩
  have hmemx : x ∈ centerRange (MAP_WIDTH / 2) := by
    unfold centerRange MAP_WIDTH
    simp only [List.mem_map, List.mem_range]
    exact ⟨x - 22, by omega, by omega⟩
  have hlen : y < (genRows MAP_WIDTH MAP_HEIGHT seed).1.length := by
    rw [genRows_length]
    unfold MAP_HEIGHT
    omega
  obtain ⟨r, hr, hrl⟩ := forceFold_get_of_mem (centerRange (MAP_WIDTH / 2)) MAP_WIDTH
    (centerRange (MAP_HEIGHT / 2)) (genRows MAP_WIDTH MAP_HEIGHT seed).1 y
    (genRows_row_length MAP_WIDTH MAP_HEIGHT seed) hmemy hlen
  rw [hr, Option.some_bind]
  refine forceRow_get_of_mem _ _ x hmemx ?_
  rw [hrl]
  show x < 50
  omega

/-- The genesis state with an explicit seed, in explicit record form. -/
theorem createInitialState_spec (name : String) (seed : ℤ) (rng : Rng) (now : ℕ) :
    (createInitialState name (some seed) rng now).1 =
      { colonyName := name
        seed := seed
        map := generateMap MAP_WIDTH MAP_HEIGHT seed
        width := (MAP_WIDTH : ℤ)
        height := (MAP_HEIGHT : ℤ)
        npcs := (spawnNpcs 5 now rng).1
        buildings := [initialBase]
        resources := ⟨0, 0, 20, 0⟩
        logs := [⟨"init", toString now, "The expedition has arrived.", LogType.INFO⟩]
        tickCount := 0
        weather := Weather.SUNNY
        epoch := 1
        selectedEntityId := none } := rfl

/-- The genesis map is exactly the seeded generation: the unseeded draw
stream, colony name and clock play no part in it. -/
theorem createInitialState_map (name : String) (seed : ℤ) (rng : Rng) (now : ℕ) :
    (createInitialState name (some seed) rng now).1.map =
      generateMap MAP_WIDTH MAP_HEIGHT seed := by
  rw [createInitialState_spec]

/-- Claim C8: genesis terrain is a deterministic function of the seed
alone — two genesis calls with the same seed but different names,
unseeded draw streams and clocks produce the same map — and for every
seed the 7 x 7 block of tiles centered on (width / 2, height / 2) =
(25, 20) is entirely Grass after generation, regardless of the raw
random draws at those cells. -/
theorem c8_map_determinism_center_grass (seed : ℤ) (name1 name2 : String)
    (rng1 rng2 : Rng) (now1 now2 : ℕ) (x y : ℕ)
    (hx1 : 22 ≤ x) (hx2 : x ≤ 28) (hy1 : 17 ≤ y) (hy2 : y ≤ 23) :
    (createInitialState name1 (some seed) rng1 now1).1.map =
      (createInitialState name2 (some seed) rng2 now2).1.map ∧
    ((createInitialState name1 (some seed) rng1 now1).1.map.get? y).bind
      (fun row => row.get? x) = some Tile.GRASS := by
  constructor
  · rw [createInitialState_map, createInitialState_map]
  · rw [createInitialState_map]
    exact generateMap_center_grass seed x y hx1 hx2 hy1 hy2

/-- Claim C8 witness: at seed 42 the exact center tile (25, 20) is
Grass and the map is independent of the other genesis inputs. -/
theorem c8_witness :
    (createInitialState "A" (some 42) constRng 0).1.map =
      (createInitialState "B" (some 42) halfRng 7).1.map ∧
    ((createInitialState "A" (some 42) constRng 0).1.map.get? 20).bind
      (fun row => row.get? 25) = some Tile.GRASS :=
  c8_map_determinism_center_grass 42 "A" "B" constRng halfRng 0 7 25 20
    (by decide) (by decide) (by decide) (by decide)

/-- Crafting keeps the ledger non-negative: the 10-Wood deduction only
happens behind the balance check. -/
theorem processCrafting_resOK (s : GameState) (npc : NPC) (now : ℕ)
    (h : resOK s.resources) : resOK (processCrafting s npc now).2.resources := by
  unfold processCrafting PICKAXE_WOOD_COST
  obtain ⟨h1, h2, h3, h4⟩ := h
  dsimp only
  split_ifs with ht hw
  · exact ⟨by simp; omega, by simp; omega, by simp; omega, by simp; omega⟩
  · exact ⟨h1, h2, h3, h4⟩
  · exact ⟨h1, h2, h3, h4⟩

/-- Crafting never touches the building list. -/
theorem processCrafting_buildings (s : GameState) (npc : NPC) (now : ℕ) :
    (processCrafting s npc now).2.buildings = s.buildings := by
  unfold processCrafting
  dsimp only
  split_ifs <;> rfl

/-- Crafting prepends at most one log entry. -/
theorem processCrafting_logs (s : GameState) (npc : NPC) (now : ℕ) :
    (processCrafting s npc now).2.logs.length ≤ s.logs.length + 1 := by
  unfold processCrafting
  dsimp only
  split_ifs <;> simp

/-- Construction work never touches the ledger. -/
theorem processBuildingState_resources (s : GameState) (npc : NPC) (now : ℕ) :
    (processBuildingState s npc now).2.resources = s.resources := by
  unfold processBuildingState
  dsimp only
  by_cases ht : npc.actionTimer - 1 ≤ 0
  case neg => rw [if_neg ht]
  case pos =>
    rw [if_pos ht]
    rcases hidx : s.buildings.findIdx? (fun b =>
      match npc.targetPos with
      | some tp => decide (b.pos = tp)
      | none => false) with _ | i
    · try simp only [hidx]
      all_goals rfl
    · try simp only [hidx]
      all_goals rcases hb : s.buildings.get? i with _ | b0
      all_goals try simp only [hb]
      all_goals rfl

/-- Construction work preserves the building invariant: the +10
increment marks the building completed exactly when the threshold is
reached, and a completed building stays completed with its progress
only growing. -/
theorem processBuildingState_buildingsOK (s : GameState) (npc : NPC) (now : ℕ)
    (h : ∀ b ∈ s.buildings, buildingOK b) :
    ∀ b ∈ (processBuildingState s npc now).2.buildings, buildingOK b := by
  unfold processBuildingState
  dsimp only
  by_cases ht : npc.actionTimer - 1 ≤ 0
  case neg => rw [if_neg ht]; exact h
  case pos =>
    rw [if_pos ht]
    rcases hidx : s.buildings.findIdx? (fun b =>
      match npc.targetPos with
      | some tp => decide (b.pos = tp)
      | none => false) with _ | i
    · try simp only [hidx]
      all_goals exact h
    · try simp only [hidx]
      all_goals rcases hb : s.buildings.get? i with _ | b0
      all_goals try simp only [hb]
      · exact h
      · intro b hbmem
        rcases List.mem_or_eq_of_mem_set hbmem with hm | hm
        · exact h b hm
        · subst hm
          obtain ⟨hb1, hb2⟩ := h b0 (List.get?_mem hb)
          unfold buildingOK
          constructor
          · show 0 ≤ b0.constructionProgress + 10
            omega
          · show (if b0.maxConstructionProgress ≤ b0.constructionProgress + 10
                  then true else b0.completed) = true ↔
              b0.maxConstructionProgress ≤ b0.constructionProgress + 10
            by_cases hm2 : b0.maxConstructionProgress ≤ b0.constructionProgress + 10
            · simp [hm2]
            · rw [if_neg hm2]
              constructor
              · intro hcc
                have := hb2.mp hcc
                omega
              · intro hcc
                exact absurd hcc hm2

/-- Construction work prepends at most one log entry. -/
theorem processBuildingState_logs (s : GameState) (npc : NPC) (now : ℕ) :
    (processBuildingState s npc now).2.logs.length ≤ s.logs.length + 1 := by
  unfold processBuildingState
  dsimp only
  by_cases ht : npc.actionTimer - 1 ≤ 0
  case neg =>
    rw [if_neg ht]
    all_goals try dsimp only
    all_goals omega
  case pos =>
    rw [if_pos ht]
    rcases hidx : s.buildings.findIdx? (fun b =>
      match npc.targetPos with
      | some tp => decide (b.pos = tp)
      | none => false) with _ | i
    · try simp only [hidx]
      all_goals try dsimp only
      all_goals omega
    · try simp only [hidx]
      all_goals rcases hb : s.buildings.get? i with _ | b0
      all_goals try simp only [hb]
      all_goals try dsimp only
      all_goals first
        | omega
        | (split_ifs <;> simp)

/-- Farming only adds Food. -/
theorem processFarming_resOK (s : GameState) (npc : NPC) (rng : Rng)
    (h : resOK s.resources) : resOK (processFarming s npc rng).2.1.resources := by
  unfold processFarming
  obtain ⟨h1, h2, h3, h4⟩ := h
  unfold resOK
  dsimp only
  split_ifs with ht <;> refine ⟨?_, ?_, ?_, ?_⟩ <;> (try simp) <;> omega

/-- Farming never touches the building list. -/
theorem processFarming_buildings (s : GameState) (npc : NPC) (rng : Rng) :
    (processFarming s npc rng).2.1.buildings = s.buildings := by
  unfold processFarming
  dsimp only
  split_ifs <;> rfl

/-- Farming never logs. -/
theorem processFarming_logs (s : GameState) (npc : NPC) (rng : Rng) :
    (processFarming s npc rng).2.1.logs = s.logs := by
  unfold processFarming
  dsimp only
  split_ifs <;> rfl

/-- Gathering only adds resources (Wood, Food, Stone). -/
theorem processGathering_resOK (s : GameState) (npc : NPC) (rng : Rng) (now : ℕ)
    (h : resOK s.resources) : resOK (processGathering s npc rng now).2.1.resources := by
  unfold processGathering
  obtain ⟨h1, h2, h3, h4⟩ := h
  unfold resOK
  dsimp only
  by_cases ht : npc.actionTimer - 1 ≤ 0
  case neg =>
    rw [if_neg ht]
    exact ⟨h1, h2, h3, h4⟩
  case pos =>
    rw [if_pos ht]
    rcases htp : npc.targetPos with _ | tp
    all_goals try simp only [htp]
    · exact ⟨h1, h2, h3, h4⟩
    · rcases htile : tileAtXY s.map tp.x tp.y with _ | t
      all_goals try simp only [htile]
      all_goals try cases t
      all_goals try simp only [htile]
      all_goals try dsimp only
      all_goals first
        | exact ⟨h1, h2, h3, h4⟩
        | (split_ifs <;> refine ⟨?_, ?_, ?_, ?_⟩ <;> (try simp) <;> omega)

/-- Gathering never touches the building list. -/
theorem processGathering_buildings (s : GameState) (npc : NPC) (rng : Rng) (now : ℕ) :
    (processGathering s npc rng now).2.1.buildings = s.buildings := by
  unfold processGathering
  dsimp only
  by_cases ht : npc.actionTimer - 1 ≤ 0
  case neg => rw [if_neg ht]
  case pos =>
    rw [if_pos ht]
    rcases htp : npc.targetPos with _ | tp
    all_goals try simp only [htp]
    all_goals try rfl
    all_goals rcases htile : tileAtXY s.map tp.x tp.y with _ | t
    all_goals try cases t
    all_goals try simp only [htile]
    all_goals try dsimp only
    all_goals first
      | rfl
      | (split_ifs <;> rfl)

/-- Gathering prepends at most one log entry. -/
theorem processGathering_logs (s : GameState) (npc : NPC) (rng : Rng) (now : ℕ) :
    (processGathering s npc rng now).2.1.logs.length ≤ s.logs.length + 1 := by
  unfold processGathering
  dsimp only
  by_cases ht : npc.actionTimer - 1 ≤ 0
  case neg =>
    rw [if_neg ht]
    all_goals try dsimp only
    all_goals omega
  case pos =>
    rw [if_pos ht]
    rcases htp : npc.targetPos with _ | tp
    all_goals try simp only [htp]
    all_goals try dsimp only
    · omega
    · rcases htile : tileAtXY s.map tp.x tp.y with _ | t
      all_goals try simp only [htile]
      all_goals try cases t
      all_goals try simp only [htile]
      all_goals try dsimp only
      all_goals first
        | omega
        | (split_ifs <;> simp)

/-- One agent's evaluation keeps every resource count non-negative. -/
theorem processNpc_resOK (s : GameState) (rng : Rng) (now : ℕ) (npc : NPC)
    (h : resOK s.resources) : resOK (processNpc s rng now npc).2.1.resources := by
  unfold processNpc
  cases hst : npc.state
  all_goals dsimp only
  case IDLE =>
    rcases hpi : processIdle s npc rng with ⟨n, r⟩
    try simp only [hpi]
    exact h
  case MOVING => exact h
  case CRAFTING =>
    rcases hpc : processCrafting s npc now with ⟨n, s2⟩
    try simp only [hpc]
    have hx := processCrafting_resOK s npc now h
    rw [hpc] at hx
    exact hx
  case BUILDING =>
    rcases hpb : processBuildingState s npc now with ⟨n, s2⟩
    try simp only [hpb]
    have hx := processBuildingState_resources s npc now
    rw [hpb] at hx
    show resOK s2.resources
    rw [hx]
    exact h
  case FARMING =>
    have hx := processFarming_resOK s npc rng h
    exact hx
  case GATHERING =>
    have hx := processGathering_resOK s npc rng now h
    exact hx
  case SLEEPING => exact h
  case FIGHTING => exact h

/-- One agent's evaluation preserves the building invariant. -/
theorem processNpc_buildingsOK (s : GameState) (rng : Rng) (now : ℕ) (npc : NPC)
    (h : ∀ b ∈ s.buildings, buildingOK b) :
    ∀ b ∈ (processNpc s rng now npc).2.1.buildings, buildingOK b := by
  unfold processNpc
  cases hst : npc.state
  all_goals dsimp only
  case IDLE =>
    rcases hpi : processIdle s npc rng with ⟨n, r⟩
    try simp only [hpi]
    exact h
  case MOVING => exact h
  case CRAFTING =>
    rcases hpc : processCrafting s npc now with ⟨n, s2⟩
    try simp only [hpc]
    have hx := processCrafting_buildings s npc now
    rw [hpc] at hx
    show ∀ b ∈ s2.buildings, buildingOK b
    rw [hx]
    exact h
  case BUILDING =>
    rcases hpb : processBuildingState s npc now with ⟨n, s2⟩
    try simp only [hpb]
    have hx := processBuildingState_buildingsOK s npc now h
    rw [hpb] at hx
    exact hx
  case FARMING =>
    have hx := processFarming_buildings s npc rng
    rw [hx]
    exact h
  case GATHERING =>
    have hx := processGathering_buildings s npc rng now
    rw [hx]
    exact h
  case SLEEPING => exact h
  case FIGHTING => exact h

/-- One agent's evaluation prepends at most one log entry. -/
theorem processNpc_logs (s : GameState) (rng : Rng) (now : ℕ) (npc : NPC) :
    (processNpc s rng now npc).2.1.logs.length ≤ s.logs.length + 1 := by
  unfold processNpc
  cases hst : npc.state
  all_goals dsimp only
  case IDLE =>
    rcases hpi : processIdle s npc rng with ⟨n, r⟩
    try simp only [hpi]
    omega
  case MOVING => omega
  case CRAFTING =>
    rcases hpc : processCrafting s npc now with ⟨n, s2⟩
    try simp only [hpc]
    have hx := processCrafting_logs s npc now
    rw [hpc] at hx
    exact hx
  case BUILDING =>
    rcases hpb : processBuildingState s npc now with ⟨n, s2⟩
    try simp only [hpb]
    have hx := processBuildingState_logs s npc now
    rw [hpb] at hx
    exact hx
  case FARMING =>
    have hx := processFarming_logs s npc rng
    rw [hx]
    omega
  case GATHERING => exact processGathering_logs s npc rng now
  case SLEEPING => omega
  case FIGHTING => omega

/-- The per-agent fold keeps every resource count non-negative. -/
theorem processAll_resOK (now : ℕ) :
    ∀ (npcs : List NPC) (s : GameState) (rng : Rng), resOK s.resources →
    resOK (processAll now npcs s rng).2.1.resources := by
  intro npcs
  induction npcs with
  | nil => intro s rng h; exact h
  | cons npc rest ih =>
    intro s rng h
    unfold processAll
    rcases hp : processNpc s rng now npc with ⟨n, s2, rng2⟩
    simp only [hp]
    rcases hr : processAll now rest s2 rng2 with ⟨ns, s3, rng3⟩
    simp only [hr]
    have h2 := processNpc_resOK s rng now npc h
    rw [hp] at h2
    have h3 := ih s2 rng2 h2
    rw [hr] at h3
    exact h3

/-- The per-agent fold preserves the building invariant. -/
theorem processAll_buildingsOK (now : ℕ) :
    ∀ (npcs : List NPC) (s : GameState) (rng : Rng),
    (∀ b ∈ s.buildings, buildingOK b) →
    ∀ b ∈ (processAll now npcs s rng).2.1.buildings, buildingOK b := by
  intro npcs
  induction npcs with
  | nil => intro s rng h; exact h
  | cons npc rest ih =>
    intro s rng h
    unfold processAll
    rcases hp : processNpc s rng now npc with ⟨n, s2, rng2⟩
    simp only [hp]
    rcases hr : processAll now rest s2 rng2 with ⟨ns, s3, rng3⟩
    simp only [hr]
    have h2 := processNpc_buildingsOK s rng now npc h
    rw [hp] at h2
    have h3 := ih s2 rng2 h2
    rw [hr] at h3
    exact h3

/-- The per-agent fold prepends at most one log entry per agent. -/
theorem processAll_logs (now : ℕ) :
    ∀ (npcs : List NPC) (s : GameState) (rng : Rng),
    (processAll now npcs s rng).2.1.logs.length ≤ s.logs.length + npcs.length := by
  intro npcs
  induction npcs with
  | nil => intro s rng; simp [processAll]
  | cons npc rest ih =>
    intro s rng
    unfold processAll
    rcases hp : processNpc s rng now npc with ⟨n, s2, rng2⟩
    simp only [hp]
    rcases hr : processAll now rest s2 rng2 with ⟨ns, s3, rng3⟩
    simp only [hr]
    have h2 := processNpc_logs s rng now npc
    rw [hp] at h2
    have h3 := ih s2 rng2
    rw [hr] at h3
    dsimp only at h2 h3
    simp only [List.length_cons]
    omega

/-- The weather phase does not touch the ledger, buildings or agents,
and leaves at most max 50 (previous length) log entries (at most 50
when it fires, since it truncates). -/
theorem applyWeather_spec (s : GameState) (now : ℕ) :
    (applyWeather s now).resources = s.resources ∧
    (applyWeather s now).buildings = s.buildings ∧
    (applyWeather s now).npcs = s.npcs ∧
    (applyWeather s now).logs.length ≤ max 50 s.logs.length := by
  unfold applyWeather
  dsimp only
  split_ifs
  · refine ⟨rfl, rfl, rfl, ?_⟩
    refine le_trans ?_ (le_max_left 50 s.logs.length)
    simp
  · exact ⟨rfl, rfl, rfl, le_max_of_le_right le_rfl⟩

/-- The passive Fate gain touches only the ledger. -/
theorem applyFate_frames (s : GameState) :
    (applyFate s).buildings = s.buildings ∧ (applyFate s).npcs = s.npcs ∧
    (applyFate s).logs = s.logs := by
  unfold applyFate
  dsimp only
  split_ifs <;> exact ⟨rfl, rfl, rfl⟩

/-- The passive Fate gain keeps the ledger non-negative. -/
theorem applyFate_resOK (s : GameState) (h : resOK s.resources) :
    resOK (applyFate s).resources := by
  obtain ⟨h1, h2, h3, h4⟩ := h
  unfold applyFate resOK
  dsimp only
  split_ifs <;> refine ⟨?_, ?_, ?_, ?_⟩ <;> (try simp) <;> omega

/-- The random event leaves buildings alone and adds at most one log. -/
theorem applyRandomEvent_frames (s : GameState) (rng : Rng) (now : ℕ) :
    (applyRandomEvent s rng now).1.buildings = s.buildings ∧
    (applyRandomEvent s rng now).1.npcs = s.npcs ∧
    (applyRandomEvent s rng now).1.logs.length ≤ s.logs.length + 1 := by
  unfold applyRandomEvent
  dsimp only
  split_ifs <;> refine ⟨rfl, rfl, ?_⟩ <;> simp

/-- The random event keeps the ledger non-negative: the Food loss
clamps at zero by design. -/
theorem applyRandomEvent_resOK (s : GameState) (rng : Rng) (now : ℕ)
    (h : resOK s.resources) : resOK (applyRandomEvent s rng now).1.resources := by
  obtain ⟨h1, h2, h3, h4⟩ := h
  unfold applyRandomEvent resOK
  dsimp only
  split_ifs <;> refine ⟨?_, ?_, ?_, ?_⟩ <;> (try simp) <;> try omega
  all_goals exact le_max_left 0 _

/-- One tick keeps every resource count non-negative. -/
theorem updateGameState_resOK (s : GameState) (rng : Rng) (now : ℕ)
    (h : resOK s.resources) : resOK (updateGameState s rng now).1.resources := by
  unfold updateGameState
  dsimp only
  rcases hall : processAll now
      (applyFate (applyWeather { s with tickCount := s.tickCount + 1 } now)).npcs
      (applyFate (applyWeather { s with tickCount := s.tickCount + 1 } now)) rng
    with ⟨ns, s4, rng4⟩
  simp only [hall]
  have hw := applyWeather_spec { s with tickCount := s.tickCount + 1 } now
  have hf := applyFate_resOK (applyWeather { s with tickCount := s.tickCount + 1 } now)
    (by rw [hw.1]; exact h)
  have hp := processAll_resOK now (applyFate (applyWeather { s with tickCount := s.tickCount + 1 } now)).npcs (applyFate (applyWeather { s with tickCount := s.tickCount + 1 } now)) rng hf
  rw [hall] at hp
  exact applyRandomEvent_resOK { s4 with npcs := ns } rng4 now hp

/-- One tick preserves the building invariant. -/
theorem updateGameState_buildingsOK (s : GameState) (rng : Rng) (now : ℕ)
    (h : ∀ b ∈ s.buildings, buildingOK b) :
    ∀ b ∈ (updateGameState s rng now).1.buildings, buildingOK b := by
  unfold updateGameState
  dsimp only
  rcases hall : processAll now
      (applyFate (applyWeather { s with tickCount := s.tickCount + 1 } now)).npcs
      (applyFate (applyWeather { s with tickCount := s.tickCount + 1 } now)) rng
    with ⟨ns, s4, rng4⟩
  simp only [hall]
  have hw := applyWeather_spec { s with tickCount := s.tickCount + 1 } now
  have hft := applyFate_frames (applyWeather { s with tickCount := s.tickCount + 1 } now)
  have hb0 : ∀ b ∈ (applyFate (applyWeather { s with tickCount := s.tickCount + 1 } now)).buildings,
      buildingOK b := by
    rw [hft.1, hw.2.1]
    exact h
  have hp := processAll_buildingsOK now (applyFate (applyWeather { s with tickCount := s.tickCount + 1 } now)).npcs (applyFate (applyWeather { s with tickCount := s.tickCount + 1 } now)) rng hb0
  rw [hall] at hp
  have he := applyRandomEvent_frames { s4 with npcs := ns } rng4 now
  rw [he.1]
  exact hp

/-- One tick grows the log by at most one entry per agent plus one for
the random event, on top of the weather phase's max 50 bound (the
weather phase is the only one that ever truncates). -/
theorem updateGameState_logs (s : GameState) (rng : Rng) (now : ℕ) :
    (updateGameState s rng now).1.logs.length ≤
      max 50 s.logs.length + s.npcs.length + 1 := by
  unfold updateGameState
  dsimp only
  rcases hall : processAll now
      (applyFate (applyWeather { s with tickCount := s.tickCount + 1 } now)).npcs
      (applyFate (applyWeather { s with tickCount := s.tickCount + 1 } now)) rng
    with ⟨ns, s4, rng4⟩
  simp only [hall]
  have hw := applyWeather_spec { s with tickCount := s.tickCount + 1 } now
  have hft := applyFate_frames (applyWeather { s with tickCount := s.tickCount + 1 } now)
  have hp := processAll_logs now
    (applyFate (applyWeather { s with tickCount := s.tickCount + 1 } now)).npcs
    (applyFate (applyWeather { s with tickCount := s.tickCount + 1 } now)) rng
  rw [hall] at hp
  have hev := applyRandomEvent_frames { s4 with npcs := ns } rng4 now
  have hnp : (applyFate (applyWeather { s with tickCount := s.tickCount + 1 } now)).npcs.length
      = s.npcs.length := by rw [hft.2.1, hw.2.2.1]
  have hlg : (applyFate (applyWeather { s with tickCount := s.tickCount + 1 } now)).logs.length
      ≤ max 50 s.logs.length := by
    rw [hft.2.2]
    exact hw.2.2.2
  have hcomb : s4.logs.length ≤ max 50 s.logs.length + s.npcs.length := by
    refine le_trans hp ?_
    rw [hnp]
    exact Nat.add_le_add_right hlg _
  refine le_trans hev.2.2 ?_
  exact Nat.add_le_add_right hcomb 1

/-- Genesis starts the ledger at Wood 0, Stone 0, Food 20, Fate 0. -/
theorem createInitialState_resources (name : String) (seedInput : Option ℤ)
    (rng : Rng) (now : ℕ) :
    (createInitialState name seedInput rng now).1.resources = ⟨0, 0, 20, 0⟩ := by
  cases seedInput <;> rfl

/-- Genesis starts with the single completed Base building. -/
theorem createInitialState_buildings (name : String) (seedInput : Option ℤ)
    (rng : Rng) (now : ℕ) :
    (createInitialState name seedInput rng now).1.buildings = [initialBase] := by
  cases seedInput <;> rfl

/-- Genesis starts with a single log entry. -/
theorem createInitialState_logs (name : String) (seedInput : Option ℤ)
    (rng : Rng) (now : ℕ) :
    (createInitialState name seedInput rng now).1.logs.length = 1 := by
  cases seedInput <;> rfl

/-- A successful placement keeps the ledger non-negative: each deduction
sits behind its balance check. -/
theorem placeBuilding_resOK (s : GameState) (x y : ℤ) (t : StructureType)
    (now : ℕ) (s2 : GameState) (hp : placeBuilding s x y t now = some s2)
    (h : resOK s.resources) : resOK s2.resources := by
  obtain ⟨h1, h2, h3, h4⟩ := h
  unfold placeBuilding at hp
  split_ifs at hp with g1 g2 g3 g4 g5 g6
  all_goals dsimp only at hp
  all_goals try exact Option.noConfusion hp
  all_goals obtain rfl := Option.some.inj hp
  all_goals unfold resOK
  all_goals cases t
  all_goals try simp_all [costWood, costStone, costFood, truthy, valOf]
  all_goals try refine ⟨?_, ?_, ?_, ?_⟩
  all_goals try simp
  all_goals omega

/-- A successful placement appends one incomplete building with
progress 0 of 100, preserving the building invariant. -/
theorem placeBuilding_buildingsOK (s : GameState) (x y : ℤ) (t : StructureType)
    (now : ℕ) (s2 : GameState) (hp : placeBuilding s x y t now = some s2)
    (h : ∀ b ∈ s.buildings, buildingOK b) : ∀ b ∈ s2.buildings, buildingOK b := by
  unfold placeBuilding at hp
  split_ifs at hp
  all_goals dsimp only at hp
  all_goals try exact Option.noConfusion hp
  all_goals obtain rfl := Option.some.inj hp
  all_goals intro b hb
  all_goals simp only [List.mem_append, List.mem_singleton] at hb
  all_goals rcases hb with hb | hb
  all_goals try exact h b hb
  all_goals subst hb
  all_goals refine ⟨?_, ?_⟩ <;> (try simp) <;> try omega

/-- A successful placement prepends exactly one log entry. -/
theorem placeBuilding_logs (s : GameState) (x y : ℤ) (t : StructureType)
    (now : ℕ) (s2 : GameState) (hp : placeBuilding s x y t now = some s2) :
    s2.logs.length = s.logs.length + 1 := by
  unfold placeBuilding at hp
  split_ifs at hp
  all_goals dsimp only at hp
  all_goals try exact Option.noConfusion hp
  all_goals obtain rfl := Option.some.inj hp
  all_goals simp

/-- Bless touches neither the buildings nor more than one log entry. -/
theorem bless_frames (s : GameState) (aid : String) (now : ℕ) :
    (bless s aid now).buildings = s.buildings ∧
    (bless s aid now).logs.length ≤ s.logs.length + 1 := by
  unfold bless
  dsimp only
  split_ifs with hf
  · rcases hidx : s.npcs.findIdx? (fun n => decide (n.id = aid)) with _ | i
    all_goals try simp only [hidx]
    · exact ⟨by trivial, by omega⟩
    · rcases hn : s.npcs.get? i with _ | n
      all_goals try simp only [hn]
      · exact ⟨by trivial, by omega⟩
      · exact ⟨by trivial, by simp⟩
  · exact ⟨by trivial, by omega⟩

/-- Bless keeps the ledger non-negative: the 5-Fate deduction sits
behind the balance check. -/
theorem bless_resOK (s : GameState) (aid : String) (now : ℕ)
    (h : resOK s.resources) : resOK (bless s aid now).resources := by
  obtain ⟨h1, h2, h3, h4⟩ := h
  unfold bless resOK
  dsimp only
  split_ifs with hf
  · rcases hidx : s.npcs.findIdx? (fun n => decide (n.id = aid)) with _ | i
    all_goals try simp only [hidx]
    · exact ⟨h1, h2, h3, h4⟩
    · rcases hn : s.npcs.get? i with _ | n
      all_goals try simp only [hn]
      · exact ⟨h1, h2, h3, h4⟩
      · refine ⟨?_, ?_, ?_, ?_⟩ <;> (try simp) <;> omega
  · exact ⟨h1, h2, h3, h4⟩

/-- Role cycling touches neither the ledger nor the buildings, and
prepends at most one log entry. -/
theorem cycleRole_spec (s : GameState) (aid : String) (now : ℕ) :
    (cycleRole s aid now).resources = s.resources ∧
    (cycleRole s aid now).buildings = s.buildings ∧
    (cycleRole s aid now).logs.length ≤ s.logs.length + 1 := by
  unfold cycleRole
  rcases hidx : s.npcs.findIdx? (fun n => decide (n.id = aid)) with _ | i
  all_goals try simp only [hidx]
  · exact ⟨by trivial, by trivial, by omega⟩
  · rcases hn : s.npcs.get? i with _ | n
    all_goals try simp only [hn]
    · exact ⟨by trivial, by trivial, by omega⟩
    · exact ⟨by trivial, by trivial, by simp⟩

/-- Selection stores only the identifier. -/
theorem selectEntity_spec (s : GameState) (aid : Option String) :
    (selectEntity s aid).resources = s.resources ∧
    (selectEntity s aid).buildings = s.buildings ∧
    (selectEntity s aid).logs = s.logs := ⟨rfl, rfl, rfl⟩

/-- Claim C1: every reachable world state (genesis followed by any
sequence of ticks, placements, bless and role-cycle requests) has
non-negative Wood, Stone, Food and Fate counts: every deduction
(pickaxe crafting, construction cost, bless) sits behind a balance
check, and the random food-loss event clamps at zero. -/
theorem c1_resources_nonneg (s : GameState) (h : Reachable s) :
    0 ≤ s.resources.wood ∧ 0 ≤ s.resources.stone ∧
    0 ≤ s.resources.food ∧ 0 ≤ s.resources.fate := by
  have hOK : resOK s.resources := by
    induction h with
    | genesis name seedInput rng now =>
      rw [createInitialState_resources]
      decide
    | step h rng now ih => exact updateGameState_resOK _ rng now ih
    | place h x y t now hp ih => exact placeBuilding_resOK _ x y t now _ hp ih
    | blessed h aid now ih => exact bless_resOK _ aid now ih
    | @cycled s1 h aid now ih =>
      have hcc := (cycleRole_spec s1 aid now).1
      rw [hcc]
      exact ih
    | selected h aid ih => exact ih
  exact hOK

/-- Claim C1 witness: the genesis world's ledger is non-negative. -/
theorem c1_witness :
    0 ≤ genesisExample.resources.wood ∧ 0 ≤ genesisExample.resources.stone ∧
    0 ≤ genesisExample.resources.food ∧ 0 ≤ genesisExample.resources.fate :=
  c1_resources_nonneg genesisExample (Reachable.genesis "Ironhold" (some 1) constRng 0)

/-- Claim C2 (amended): every reachable world state's buildings have
non-negative constructionProgress, and completed holds exactly when
progress has reached maxConstructionProgress. The claimed upper bound
progress ≤ max does NOT hold (see the counterexample): a second Builder
whose timer fires after completion pushes progress past the threshold. -/
theorem c2_building_invariant (s : GameState) (h : Reachable s) :
    ∀ b ∈ s.buildings, 0 ≤ b.constructionProgress ∧
      (b.completed = true ↔ b.maxConstructionProgress ≤ b.constructionProgress) := by
  have hOK : ∀ b ∈ s.buildings, buildingOK b := by
    induction h with
    | genesis name seedInput rng now =>
      rw [createInitialState_buildings]
      intro b hb
      rw [List.mem_singleton] at hb
      subst hb
      decide
    | step h rng now ih => exact updateGameState_buildingsOK _ rng now ih
    | place h x y t now hp ih => exact placeBuilding_buildingsOK _ x y t now _ hp ih
    | @blessed s1 h aid now ih =>
      have hbb := (bless_frames s1 aid now).1
      rw [hbb]
      exact ih
    | @cycled s1 h aid now ih =>
      have hcc := (cycleRole_spec s1 aid now).2.1
      rw [hcc]
      exact ih
    | selected h aid ih => exact ih
  exact hOK

/-- Claim C2 witness: the genesis Base satisfies the building
invariant. -/
theorem c2_witness :
    0 ≤ initialBase.constructionProgress ∧
    (initialBase.completed = true ↔
      initialBase.maxConstructionProgress ≤ initialBase.constructionProgress) :=
  c2_building_invariant genesisExample (Reachable.genesis "Ironhold" (some 1) constRng 0)
    initialBase (by decide)

/-- Iterated ticks from a reachable state stay reachable. -/
theorem reachable_stepN (n : ℕ) :
    ∀ (s : GameState) (rng : Rng), Reachable s → Reachable (stepN n (s, rng)).1 := by
  induction n with
  | zero => intro s rng h; exact h
  | succ k ih =>
    intro s rng h
    show Reachable (stepN k (updateGameState s rng 0)).1
    exact ih (updateGameState s rng 0).1 (updateGameState s rng 0).2
      (Reachable.step h rng 0)

/-- Iterated role cycles from a reachable state stay reachable. -/
theorem reachable_cycleN (n : ℕ) :
    ∀ s : GameState, Reachable s → Reachable (cycleN n s) := by
  induction n with
  | zero => intro s h; exact h
  | succ k ih => intro s h; exact ih _ (Reachable.cycled h "npc_0_0" 0)

/-- Claim C2 counterexample: the claim as stated (progress never exceeds
maxConstructionProgress on any reachable state) is false. From genesis,
a free Base placement creates a construction site; four Builders work
it in the same ticks, and on the firing tick that completes it at 100
the later builders in the agent list push its progress to 120. -/
theorem c2_counterexample :
    ¬ (∀ s : GameState, Reachable s → ∀ b ∈ s.buildings,
        b.constructionProgress ≤ b.maxConstructionProgress) := by
  intro hall
  have hplace : placeBuilding genesisExample 26 22 StructureType.BASE 0 = some siteWorld := by
    rfl
  have hreach : Reachable overbuiltWorld := by
    apply reachable_stepN
    apply Reachable.cycled
    apply Reachable.cycled
    apply Reachable.cycled
    apply Reachable.cycled
    exact Reachable.place (Reachable.genesis "Ironhold" (some 1) constRng 0) 26 22
      StructureType.BASE 0 hplace
  have hb : (overbuiltWorld.buildings.get? 1).map
      (fun b => (b.constructionProgress, b.maxConstructionProgress)) = some (120, 100) := by
    decide
  rcases hget : overbuiltWorld.buildings.get? 1 with _ | b
  · rw [hget] at hb
    exact Option.noConfusion hb
  · rw [hget] at hb
    have hmem := List.get?_mem hget
    have hle := hall overbuiltWorld hreach b hmem
    have hpair : b.constructionProgress = 120 ∧ b.maxConstructionProgress = 100 := by
      have hinj := Option.some.inj hb
      exact ⟨congrArg Prod.fst hinj, congrArg Prod.snd hinj⟩
    omega

/-- Claim C5 (amended): only the weather-change update truncates the log
(leaving at most max 50 (previous length) entries, at most 50 when it
fires); every other log write — role cycle, bless, construction start,
and each tick's per-agent and event logs — prepends without truncating,
so the 50-entry bound does not hold for all reachable states. -/
theorem c5_log_growth (s : GameState) (rng : Rng) (now : ℕ) (aid : String)
    (x y : ℤ) (t : StructureType) (s2 : GameState) :
    ((applyWeather s now).logs.length ≤ max 50 s.logs.length) ∧
    ((cycleRole s aid now).logs.length ≤ s.logs.length + 1) ∧
    ((bless s aid now).logs.length ≤ s.logs.length + 1) ∧
    (placeBuilding s x y t now = some s2 → s2.logs.length = s.logs.length + 1) ∧
    ((updateGameState s rng now).1.logs.length ≤
      max 50 s.logs.length + s.npcs.length + 1) :=
  ⟨(applyWeather_spec s now).2.2.2, (cycleRole_spec s aid now).2.2,
   (bless_frames s aid now).2, fun hp => placeBuilding_logs s x y t now s2 hp,
   updateGameState_logs s rng now⟩

/-- Claim C5 witness: one role cycle grows the genesis log by at most
one entry, and the free Base placement grows it by exactly one. -/
theorem c5_witness :
    (cycleRole genesisExample "npc_0_0" 0).logs.length ≤ genesisExample.logs.length + 1 ∧
    siteWorld.logs.length = genesisExample.logs.length + 1 :=
  ⟨(c5_log_growth genesisExample constRng 0 "npc_0_0" 0 0 StructureType.FARM
      siteWorld).2.1,
   (c5_log_growth genesisExample constRng 0 "npc_0_0" 26 22 StructureType.BASE
      siteWorld).2.2.2.1 (by rfl)⟩

/-- Claim C5 counterexample: the claim as stated (every reachable state
has at most 50 log entries) is false: 50 role-cycle requests on the
genesis world leave 51 entries, since the role-cycle log prepend never
truncates. -/
theorem c5_counterexample : ¬ (∀ s : GameState, Reachable s → s.logs.length ≤ 50) := by
  intro hall
  have hreach : Reachable manyLogsWorld := by
    apply reachable_cycleN
    exact Reachable.genesis "Ironhold" (some 1) constRng 0
  have hlen : manyLogsWorld.logs.length = 51 := by decide
  have := hall manyLogsWorld hreach
  omega

-- --- Nearest-tile scan specification (claim C7) ---

/-- The scanned cell c of the grid holds tile t. -/
def cellIs (m : List (List Tile)) (t : Tile) (c : ℕ × ℕ) : Prop :=
  (m.get? c.2).bind (fun row => row.get? c.1) = some t

instance (m : List (List Tile)) (t : Tile) (c : ℕ × ℕ) : Decidable (cellIs m t c) := by
  unfold cellIs
  infer_instance

/-- The position of a scanned coordinate. -/
def posOf (c : ℕ × ℕ) : Position := ⟨(c.1 : ℤ), (c.2 : ℤ)⟩

/-- A cell that scans as tile t reads back as tile t through the
signed-coordinate lookup. -/
theorem tileAtXY_posOf (m : List (List Tile)) (t : Tile) (c : ℕ × ℕ)
    (h : cellIs m t c) : tileAtXY m (posOf c).x (posOf c).y = some t := by
  unfold tileAtXY posOf
  unfold cellIs at h
  rw [if_pos ⟨Int.natCast_nonneg c.1, Int.natCast_nonneg c.2⟩]
  simpa using h

/-- Once the scan accumulator holds a candidate, it keeps one whose
distance never grows. -/
theorem nearestScan_min (m : List (List Tile)) (start : Position) (t : Tile) :
    ∀ (cs : List (ℕ × ℕ)) (p : Position) (d : ℤ),
    ∃ q e, cs.foldl (nearestTileStep m start t) (some (p, d)) = some (q, e) ∧ e ≤ d := by
  intro cs
  induction cs with
  | nil => intro p d; exact ⟨p, d, rfl, le_refl d⟩
  | cons c0 cs ih =>
    intro p d
    rw [List.foldl_cons]
    unfold nearestTileStep
    by_cases hcell : (m.get? c0.2).bind (fun row => row.get? c0.1) = some t
    · rw [if_pos hcell]
      dsimp only
      split_ifs with hlt
      · obtain ⟨q, e, hres, hle⟩ := ih ⟨(c0.1 : ℤ), (c0.2 : ℤ)⟩ (dist start ⟨(c0.1 : ℤ), (c0.2 : ℤ)⟩)
        exact ⟨q, e, hres, by omega⟩
      · exact ih p d
    · rw [if_neg hcell]
      exact ih p d

/-- If the scanned list holds a matching cell, the scan ends on a
candidate at most that cell's distance away. -/
theorem nearestScan_found (m : List (List Tile)) (start : Position) (t : Tile) :
    ∀ (cs : List (ℕ × ℕ)) (acc : Option (Position × ℤ)) (c : ℕ × ℕ),
    c ∈ cs → cellIs m t c →
    ∃ q e, cs.foldl (nearestTileStep m start t) acc = some (q, e) ∧
      e ≤ dist start (posOf c) := by
  intro cs
  induction cs with
  | nil => intro acc c hc _; simp at hc
  | cons c0 cs ih =>
    intro acc c hc hcell
    rw [List.foldl_cons]
    by_cases hin : c ∈ cs
    · exact ih _ c hin hcell
    · have hc0 : c = c0 := by
        rcases List.mem_cons.mp hc with h | h
        · exact h
        · exact absurd h hin
      subst hc0
      have hstep : ∃ q e, nearestTileStep m start t acc c = some (q, e) ∧
          e ≤ dist start (posOf c) := by
        unfold nearestTileStep
        unfold cellIs at hcell
        rw [if_pos hcell]
        rcases acc with _ | pd
        · exact ⟨posOf c, dist start (posOf c), rfl, le_refl _⟩
        · dsimp only
          split_ifs with hlt
          · exact ⟨posOf c, dist start (posOf c), rfl, le_refl _⟩
          · exact ⟨pd.1, pd.2, rfl, by unfold posOf; omega⟩
      obtain ⟨q, e, hq, he⟩ := hstep
      rw [hq]
      obtain ⟨q2, e2, hres, hle⟩ := nearestScan_min m start t cs q e
      exact ⟨q2, e2, hres, le_trans hle he⟩

/-- The scan accumulator only ever holds genuine matching cells at their
true distances. -/
theorem nearestScan_sound (m : List (List Tile)) (start : Position) (t : Tile) :
    ∀ (cs : List (ℕ × ℕ)) (acc : Option (Position × ℤ)),
    (acc = none ∨ ∃ c, cellIs m t c ∧ acc = some (posOf c, dist start (posOf c))) →
    (cs.foldl (nearestTileStep m start t) acc = none ∨
      ∃ c, cellIs m t c ∧ cs.foldl (nearestTileStep m start t) acc =
        some (posOf c, dist start (posOf c))) := by
  intro cs
  induction cs with
  | nil => intro acc h; exact h
  | cons c0 cs ih =>
    intro acc h
    rw [List.foldl_cons]
    apply ih
    unfold nearestTileStep
    by_cases hcell : (m.get? c0.2).bind (fun row => row.get? c0.1) = some t
    · rw [if_pos hcell]
      rcases h with h | ⟨c, hc, h⟩
      · subst h
        exact Or.inr ⟨c0, hcell, rfl⟩
      · subst h
        dsimp only
        split_ifs with hlt
        · exact Or.inr ⟨c0, hcell, rfl⟩
        · exact Or.inr ⟨c, hc, rfl⟩
    · rw [if_neg hcell]
      exact h

/-- findNearestTile on a grid holding a matching cell returns a matching
cell of minimal Manhattan distance among all scanned cells. -/
theorem findNearestTile_found (m : List (List Tile)) (start : Position) (t : Tile)
    (hex : ∃ c ∈ scanCoords (m.headD []).length m.length, cellIs m t c) :
    ∃ p, findNearestTile m start t = some p ∧
      (∃ c, cellIs m t c ∧ p = posOf c) ∧
      ∀ c ∈ scanCoords (m.headD []).length m.length, cellIs m t c →
        dist start p ≤ dist start (posOf c) := by
  obtain ⟨c0, hc0mem, hc0⟩ := hex
  obtain ⟨q, e, hres, hle⟩ := nearestScan_found m start t
    (scanCoords (m.headD []).length m.length) none c0 hc0mem hc0
  have hsound := nearestScan_sound m start t
    (scanCoords (m.headD []).length m.length) none (Or.inl rfl)
  rw [hres] at hsound
  rcases hsound with h | ⟨c, hc, heq⟩
  · exact Option.noConfusion h
  · have hinj := Option.some.inj heq
    have hq : q = posOf c := congrArg Prod.fst hinj
    have he : e = dist start (posOf c) := congrArg Prod.snd hinj
    refine ⟨q, ?_, ⟨c, hc, hq⟩, ?_⟩
    · unfold findNearestTile
      rw [hres]
      rfl
    · intro c2 hmem2 hcell2
      obtain ⟨q2, e2, hres2, hle2⟩ := nearestScan_found m start t
        (scanCoords (m.headD []).length m.length) none c2 hmem2 hcell2
      rw [hres] at hres2
      have hinj2 := Option.some.inj hres2
      have he2 : e = e2 := congrArg Prod.snd hinj2
      rw [hq, ← he]
      omega

/-- Claim C7 (amended): an Idle Worker with no pickaxe and Wood below
10 targets the nearest Forest tile whenever the map holds one — the
chosen target's tile is Forest, so it differs from every non-Forest
position, the Base's included. (With no Forest on the map the agent
instead picks a wander target, which can even be the Base position; see
the counterexample.) -/
theorem c7_worker_targets_nearest_forest (s : GameState) (rng : Rng) (now : ℕ)
    (npc : NPC) (hst : npc.state = NPCState.IDLE) (hrole : npc.role = NPCRole.WORKER)
    (hpick : npc.equipment.pickaxe = false) (hwood : s.resources.wood < 10)
    (hex : ∃ c ∈ scanCoords (s.map.headD []).length s.map.length,
      cellIs s.map Tile.FOREST c) :
    ∃ p, (processNpc s rng now npc).1.targetPos = some p ∧
      (processNpc s rng now npc).1.state = NPCState.MOVING ∧
      tileAtXY s.map p.x p.y = some Tile.FOREST ∧
      (∀ c ∈ scanCoords (s.map.headD []).length s.map.length,
        cellIs s.map Tile.FOREST c → dist npc.pos p ≤ dist npc.pos (posOf c)) ∧
      (∀ bp : Position, tileAtXY s.map bp.x bp.y ≠ some Tile.FOREST → p ≠ bp) := by
  obtain ⟨p, hfind, ⟨c, hcell, hpc⟩, hmin⟩ :=
    findNearestTile_found s.map npc.pos Tile.FOREST hex
  have htile : tileAtXY s.map p.x p.y = some Tile.FOREST := by
    rw [hpc]
    exact tileAtXY_posOf s.map Tile.FOREST c hcell
  have hidle : (processIdle s npc rng).1.targetPos = some p ∧
      (processIdle s npc rng).1.state = NPCState.MOVING := by
    unfold processIdle
    dsimp only
    dsimp only [Rng.next]
    by_cases hr0 : rng.f rng.i < mkRat 1 20
    · rw [if_pos hr0]
      dsimp only
      rw [hrole]
      dsimp only
      rw [if_neg (fun hand => by
        have h2 := hand.2
        unfold PICKAXE_WOOD_COST at h2
        omega)]
      rw [if_neg (by simp [hpick])]
      dsimp only
      rw [hfind]
      exact ⟨rfl, rfl⟩
    · rw [if_neg hr0]
      dsimp only
      rw [hrole]
      dsimp only
      rw [if_neg (fun hand => by
        have h2 := hand.2
        unfold PICKAXE_WOOD_COST at h2
        omega)]
      rw [if_neg (by simp [hpick])]
      dsimp only
      rw [hfind]
      exact ⟨rfl, rfl⟩
  have hlift : (processNpc s rng now npc).1 = (processIdle s npc rng).1 := by
    unfold processNpc
    rw [hst]
  refine ⟨p, ?_, ?_, htile, hmin, ?_⟩
  · rw [hlift]
    exact hidle.1
  · rw [hlift]
    exact hidle.2
  · intro bp hbp heq
    rw [heq] at htile
    exact hbp htile

/-- Claim C7 counterexample: the claim as stated (such a Worker always
targets a Forest tile and never the Base position) is false on a
forestless map: the decision falls back to a wander target, which can
be exactly the Base position. -/
theorem c7_counterexample :
    ¬ (∀ (s : GameState) (rng : Rng) (now : ℕ) (npc : NPC),
        npc.state = NPCState.IDLE → npc.role = NPCRole.WORKER →
        npc.equipment.pickaxe = false → s.resources.wood < 10 →
        ∀ p, (processNpc s rng now npc).1.targetPos = some p →
          tileAtXY s.map p.x p.y = some Tile.FOREST ∧
          (∀ b ∈ s.buildings, b.structureType = StructureType.BASE → p ≠ b.pos)) := by
  intro hall
  have h := hall flatWorld halfRng 0 idleWorkerNpc rfl rfl rfl (by decide)
    ⟨25, 20⟩ (by decide)
  have h2 := h.2 initialBase (by decide) (by decide)
  exact h2 (by decide)

/-- Claim C7 witness: with one Forest tile on the map, the broke,
pickaxe-less Worker heads out Moving. -/
theorem c7_witness :
    (processNpc forestWorld constRng 0 idleWorkerNpc).1.state = NPCState.MOVING := by
  obtain ⟨p, hp, hmv, h1, h2, h3⟩ := c7_worker_targets_nearest_forest forestWorld constRng 0
    idleWorkerNpc rfl rfl rfl (by decide) ⟨(3, 0), by decide, by decide⟩
  exact hmv

end PixelColony